import Mathlib

/-!
GIAS field audio logger: schedule engine, container writer, recorder.

A shallow embedding of `main/calendar.c` and `main/audio_recorder.c`.
C `int` cells are `Int`, sizes and cursors are `Nat` (with explicit wrap-around
where the C type can overflow), arrays are total functions on indices, files
are lists of bytes.
-/

namespace GIAS

/-! ## calendar.h -/

/-- `#define HOURS_IN_DAY 24` -/
abbrev HOURS_IN_DAY : Nat := 24

/-- `#define DAYS_IN_WEEK 7` -/
abbrev DAYS_IN_WEEK : Nat := 7

/-- `#define RECORD_MODE 1` -/
abbrev RECORD_MODE : Int := 1

/-! ## calendar.c : the schedule table -/

/-- Struct `calendar_internal_t`: `schedule[hour][day]`, `file_exists`, `all_ones`.
The matrix is a function of the two indices; only indices `hour < 24`, `day < 7`
are ever read or written by the code. -/
structure calendar_internal_t where
  schedule : Nat → Nat → Int
  file_exists : Bool
  all_ones : Bool

/-- The statement pair `hour++; if (hour == HOURS_IN_DAY) { hour = 0; day = (day + 1) % DAYS_IN_WEEK; }`
that appears twice in `get_next_change_time`. -/
def advance_hour (hour day : Nat) : Nat × Nat :=
  if hour + 1 = HOURS_IN_DAY then (0, (day + 1) % DAYS_IN_WEEK) else (hour + 1, day)

/-- The `while (hours_checked < HOURS_IN_DAY * DAYS_IN_WEEK)` loop of
`get_next_change_time`. The first argument is the number of iterations the loop
condition still allows, `HOURS_IN_DAY * DAYS_IN_WEEK - hours_checked`
(`hours_checked` is used for nothing else). The result is `some minutes_passed`
when the loop leaves through `return minutes_passed`, and `none` when the loop
condition becomes false. -/
def change_scan (g : calendar_internal_t) (current_value : Int) :
    Nat → Nat → Nat → Int → Option Int
  | 0, _, _, _ => none
  | n + 1, hour, day, minutes_passed =>
    if g.schedule hour day ≠ current_value then some minutes_passed
    else
      change_scan g current_value n (advance_hour hour day).1 (advance_hour hour day).2
        (minutes_passed + 60)

/-- Conversion of an `int` to the `uint64_t` return type. -/
def to_uint64 (x : Int) : Nat := (x % 2 ^ 64).toNat

/-- Function `get_next_change_time(current_hour, current_day, current_value)` on the
global table `g`; `tm_min` is the minute of the hour that `localtime_r` reports. -/
def get_next_change_time (g : calendar_internal_t) (tm_min : Nat)
    (current_hour current_day : Nat) (current_value : Int) : Nat :=
  let minutes_passed : Int := 60 - (tm_min : Int)
  if !g.file_exists || g.schedule current_hour current_day ≠ current_value then 0
  else
    match change_scan g current_value (HOURS_IN_DAY * DAYS_IN_WEEK - 1)
        (advance_hour current_hour current_day).1 (advance_hour current_hour current_day).2
        minutes_passed with
    | some r => to_uint64 r
    | none => if current_value = RECORD_MODE ∧ g.all_ones = true then 0 else 60

/-! ### Reference notions for the schedule engine -/

/-- The cell of the grid at hour-of-week index `i` (hour `i % 24` of day `i / 24`,
the day taken modulo 7). -/
def cell_at (g : calendar_internal_t) (i : Nat) : Int :=
  g.schedule (i % 24) (i / 24 % 7)

/-- The mode observed on the weekly clock `t` minutes after Sunday 00:00. -/
def observed_mode (g : calendar_internal_t) (t : Nat) : Int :=
  g.schedule (t / 60 % 24) (t / 1440 % 7)

/-- Minutes since Sunday 00:00 of day `d`, hour `h`, minute `m`. -/
def minute_of_week (d h m : Nat) : Nat := (d * 24 + h) * 60 + m

/-- Reference definition of the lookahead, following the words of the
specification: the 167 hours following `(h, d)` are the hour-of-week indices
`d * 24 + h + 1, ..., d * 24 + h + 167`. -/
def minutesUntilNextChange (g : calendar_internal_t) (m h d : Nat) (v : Int) : Nat :=
  if g.file_exists = false ∨ g.schedule h d ≠ v then 0
  else if (List.range' (d * 24 + h + 1) 167).any (fun i => decide (cell_at g i ≠ v)) then
    (60 - m) + 60 * ((List.range' (d * 24 + h + 1) 167).takeWhile
      (fun i => decide (cell_at g i = v))).length
  else if v = RECORD_MODE ∧ g.all_ones = true then 0
  else 60

/-- A table that records only on Sunday (day 0) from 05:00 to 06:00. -/
def sunday_five_calendar : calendar_internal_t :=
  { schedule := fun hour day => if hour = 5 ∧ day = 0 then 1 else 0
    file_exists := true
    all_ones := false }

/-- A table whose cells are all `v`. -/
def uniform_calendar (v : Int) (all_ones : Bool) : calendar_internal_t :=
  { schedule := fun _ _ => v, file_exists := true, all_ones := all_ones }

/-! ## calendar.c : the loader in `check_calendar` -/

/-- One line returned by `fgets`, seen through
`sscanf(line, "%d;%d;%d;%d;%d;%d;%d;%d", &values[0], ..., &values[7])`: the list of the
integers that the conversion assigns, in order. -/
abbrev csv_line := List Int

/-- Return value of the `sscanf` call: the number of fields assigned, at most 8. -/
def sscanf_count (line : csv_line) : Nat := min line.length 8

/-- The array `values` after the `sscanf` call (only read when all 8 are assigned). -/
def sscanf_values (line : csv_line) (i : Nat) : Int := line.getD i 0

/-- Body of `for (int day = 0; day < DAYS_IN_WEEK; day++)` in the loader:
`schedule[hour][day] = values[day + 1]; if (values[day + 1] != RECORD_MODE) all_ones = false;` -/
def store_cell (values : Nat → Int) (hour : Nat) (g : calendar_internal_t) (day : Nat) :
    calendar_internal_t :=
  { g with
    schedule := fun h d => if h = hour ∧ d = day then values (day + 1) else g.schedule h d
    all_ones := if values (day + 1) ≠ RECORD_MODE then false else g.all_ones }

/-- The `for` loop over the seven days of one accepted row. -/
def store_row (values : Nat → Int) (hour : Nat) (g : calendar_internal_t) : calendar_internal_t :=
  (List.range DAYS_IN_WEEK).foldl (store_cell values hour) g

/-- The loop `while (hour < HOURS_IN_DAY && fgets(line, sizeof(line), file))` of
`check_calendar`, over the lines that `fgets` still has to deliver. -/
def load_rows : List csv_line → Nat → calendar_internal_t → calendar_internal_t
  | [], _, g => g
  | line :: rest, hour, g =>
    if hour < HOURS_IN_DAY then
      if sscanf_count line = 8 ∧ sscanf_values line 0 = (hour : Int) then
        load_rows rest (hour + 1) (store_row (sscanf_values line) hour g)
      else load_rows rest hour g
    else g

/-- The structure after `memset(&g_calendar, 0, sizeof(g_calendar)); all_ones = true;
file_exists = false;`. -/
def calendar_reset : calendar_internal_t :=
  { schedule := fun _ _ => 0, file_exists := false, all_ones := true }

/-- The loader part of `check_calendar` (from the `memset` to `file_exists = true`);
`lines` are the data lines of the file, the header line already skipped. -/
def load_calendar (lines : List csv_line) : calendar_internal_t :=
  { load_rows lines 0 calendar_reset with file_exists := true }

/-- Data lines written by `create_default_calendar`: `hour;0;0;0;0;0;0;0` for each hour. -/
def default_calendar_lines : List csv_line :=
  (List.range HOURS_IN_DAY).map (fun hour => (hour : Int) :: List.replicate DAYS_IN_WEEK 0)

/-! ## audio_recorder.c : the WAV header

A file on the card is the list of its bytes; `none` stands for a path that
`sd_card_open` cannot open. -/

/-- The ASCII codes of a four-character tag. -/
def tag (s : String) : List Nat := s.toList.map Char.toNat

/-- The array `header[44]` of `create_wav_header`. -/
def wav_header : List Nat :=
  tag "RIFF" ++ [0, 0, 0, 0] ++ tag "WAVE" ++
  tag "fmt " ++ [16, 0, 0, 0] ++ [1, 0] ++ [1, 0] ++
  [0x44, 0xAC, 0, 0] ++ [0x88, 0x58, 0x01, 0] ++ [2, 0] ++ [16, 0] ++
  tag "data" ++ [0, 0, 0, 0]

/-- Function `create_wav_header(filename)`: `open_ok` tells whether
`sd_card_open(filename, "wb")` succeeds; the second component is the content of the file
afterwards (the `fwrite` of the 44 bytes is not checked by the code and is taken to be
complete). -/
def create_wav_header (open_ok : Bool) (file : Option (List Nat)) : Bool × Option (List Nat) :=
  if !open_ok then (false, file) else (true, some wav_header)

/-- The four bytes of a `uint32_t` in memory (the target is little-endian). -/
def le32 (x : Nat) : List Nat :=
  [x % 256, x / 256 % 256, x / 65536 % 256, x / 16777216 % 256]

/-- The little-endian 32-bit value stored at byte offset `off` of a file. -/
def read_le32 (f : List Nat) (off : Nat) : Nat :=
  f.getD off 0 + 256 * f.getD (off + 1) 0 + 65536 * f.getD (off + 2) 0 +
    16777216 * f.getD (off + 3) 0

/-- The pair `fseek(file, off, SEEK_SET); fwrite(bytes, 1, n, file);` on a file opened
with `"rb+"`, for a range that lies inside the file (the only use made of it). -/
def pwrite (f : List Nat) (off : Nat) (bytes : List Nat) : List Nat :=
  f.take off ++ bytes ++ f.drop (off + bytes.length)

/-- The value that `ftell(file)` returns after `fseek(file, 0, SEEK_END)`. It is a `long`,
32 bits wide on the target: the size of the file when that is below `2 ^ 31`, and the
error value -1 when the size does not fit. -/
def ftell_end (f : List Nat) : Int :=
  if f.length < 2 ^ 31 then (f.length : Int) else -1

/-- Function `update_wav_header(filename)`: the argument is the content of the file
(`none` when `sd_card_open(filename, "rb+")` fails), the result is the return value and
the content afterwards. `file_size` is the `long` that `ftell` reports at the end of the
file; `data_size` and `riff_size` are `uint32_t`. -/
def update_wav_header (file : Option (List Nat)) : Bool × Option (List Nat) :=
  match file with
  | none => (false, none)
  | some f =>
    let file_size : Int := ftell_end f
    if file_size < 44 then (false, some f)
    else
      let data_size : Nat := ((file_size - 44) % 2 ^ 32).toNat
      let riff_size : Nat := (data_size + 36) % 2 ^ 32
      (true, some (pwrite (pwrite f 4 (le32 riff_size)) 40 (le32 data_size)))

/-! ## calendar.c : the dispatch at the end of `check_calendar` -/

/-- What the dispatch does, in order. File names are identified by the ordinal of the
`generate_filename` call that produced them (the name itself is a time stamp). -/
inductive action where
  /-- A call `generate_filename(wav_filename, ...)`. -/
  | generate_filename : action
  /-- A call `execute_recording_session(wav_filename, minutes, continuous_mode)`, with the
  ordinal of the call of `generate_filename` that filled `wav_filename`. -/
  | session (wav_filename : Nat) (minutes : Nat) (continuous_mode : Bool) : action
  /-- A call `enter_deep_sleep(minutes)`; it does not return. -/
  | deep_sleep (minutes : Nat) : action
  /-- The loop `while(1) { vTaskDelay(pdMS_TO_TICKS(1000)); }` entered after an error. -/
  | halt : action
  deriving DecidableEq, Repr

/-- The loop `while (1) { if (!execute_recording_session(wav_filename, 60, true)) {...}
generate_filename(...); vTaskDelay(...); }` of the continuous branch. `outcome k` is what the
`k`-th call of `execute_recording_session` returns (`none` when it does not return);
`sessions` is the ordinal of the next session, `names` the number of names generated so
far and `wav_filename` the current name. The first argument bounds the number of
iterations that are traced: the loop itself has no exit. -/
def continuous_loop (outcome : Nat → Option Bool) :
    Nat → Nat → Nat → Nat → List action
  | 0, _, _, _ => []
  | fuel + 1, sessions, names, wav_filename =>
    action.session wav_filename 60 true ::
      match outcome sessions with
      | some true =>
        action.generate_filename :: continuous_loop outcome fuel (sessions + 1) (names + 1) names
      | some false => [action.halt]
      | none => []

/-- The statement `if (current_value == RECORD_MODE) {...} else {...}` that ends
`check_calendar`, as the trace of its calls. -/
def dispatch (outcome : Nat → Option Bool) (fuel : Nat) (current_value : Int)
    (next_change : Nat) : List action :=
  if current_value = RECORD_MODE then
    action.generate_filename ::
      (if next_change = 0 then continuous_loop outcome fuel 0 1 0
       else
        action.session 0 next_change false ::
          match outcome 0 with
          | some true => [action.deep_sleep 60]
          | some false => [action.halt]
          | none => [])
  else [action.deep_sleep next_change]

/-- The trace of `k` successful sub-sessions of the continuous branch, numbered from `j`:
each one is `session j 60 true` followed by the generation of the next name. -/
def continuous_trace : Nat → Nat → List action
  | 0, _ => []
  | k + 1, j =>
    action.session j 60 true :: action.generate_filename :: continuous_trace k (j + 1)

/-! ## audio_recorder.h -/

/-- `#define MAX_CICLE_COUNT 1000` -/
abbrev MAX_CICLE_COUNT : Nat := 1000

/-- `#define BUF_COUNT 16` -/
abbrev BUF_COUNT : Nat := 16

/-- `#define BUF_LEN 512` -/
abbrev BUF_LEN : Nat := 512

/-- `#define I2S_BUFFERSIZE ((BUF_COUNT - 1) * BUF_LEN)`, the number of 16-bit words of
`rx_buf`. -/
abbrev I2S_BUFFERSIZE : Nat := (BUF_COUNT - 1) * BUF_LEN

/-- `#define PSRAM_BUFFER_SIZE (MAX_CICLE_COUNT * I2S_BUFFERSIZE)`, the size of the arena
in bytes. -/
abbrev PSRAM_BUFFER_SIZE : Nat := MAX_CICLE_COUNT * I2S_BUFFERSIZE

/-- `#define BLOCK_SD_WRITE (1024 * 3)` -/
abbrev BLOCK_SD_WRITE : Nat := 1024 * 3

/-- Type `recorder_state_t`. -/
inductive recorder_state_t where
  | RECORDER_STATE_IDLE
  | RECORDER_STATE_INIT_SD
  | RECORDER_STATE_RECORDING
  | RECORDER_STATE_WRITING_SD
  deriving DecidableEq, Repr

open recorder_state_t

/-! ## audio_recorder.c : the recorder -/

/-- The globals of `audio_recorder.c` that the recording logic uses, and the content of
the container file on the card. `psram_buffer` is the arena as an array of 16-bit words;
`audio_file` tells whether the handle is an open file; `card_file` is the content of the
file named `current_filename` (`none` when it does not exist). -/
@[ext]
structure recorder where
  psram_buffer : Nat → Nat
  current_state : recorder_state_t
  audio_file : Bool
  i2s_write_pos : Nat
  sd_write_pos : Nat
  cycle_count : Nat
  card_file : Option (List Nat)

/-- The loop `for (size_t i = 0; i < readsize / 2; i += 2)` of `I2S_read` on the pair
(`psram_buffer`, `i2s_write_pos`); the first argument is recursion fuel, the second is `i`.
The body is `psram_buffer[i2s_write_pos] = rx_buf[i]; if (++i2s_write_pos ==
PSRAM_BUFFER_SIZE / sizeof(uint16_t)) i2s_write_pos = 0;` (the cursor never comes near the
range of `unsigned long`). -/
def I2S_read_loop (rx_buf : Nat → Nat) (readsize : Nat) :
    Nat → Nat → (Nat → Nat) → Nat → (Nat → Nat) × Nat
  | 0, _, psram_buffer, i2s_write_pos => (psram_buffer, i2s_write_pos)
  | fuel + 1, i, psram_buffer, i2s_write_pos =>
    if i < readsize / 2 then
      I2S_read_loop rx_buf readsize fuel (i + 2)
        (fun j => if j = i2s_write_pos then rx_buf i else psram_buffer j)
        (if i2s_write_pos + 1 = PSRAM_BUFFER_SIZE / 2 then 0 else i2s_write_pos + 1)
    else (psram_buffer, i2s_write_pos)

/-- Function `I2S_read`: `rx_buf` and `readsize` are what `i2s_channel_read` delivers
(`readsize ≤ sizeof(rx_buf)`); the pass-through `i2s_channel_write` has no effect on the
recorder. The loop touches only `psram_buffer` and `i2s_write_pos`; `readsize / 2`
iterations are more than it can make. -/
def I2S_read (rx_buf : Nat → Nat) (readsize : Nat) (s : recorder) : recorder :=
  { s with
    psram_buffer := (I2S_read_loop rx_buf readsize (readsize / 2) 0 s.psram_buffer
      s.i2s_write_pos).1
    i2s_write_pos := (I2S_read_loop rx_buf readsize (readsize / 2) 0 s.psram_buffer
      s.i2s_write_pos).2 }

/-- The two tasks that `SD_write` creates with `xTaskCreatePinnedToCore`. -/
inductive sd_task where
  | sd_init_task
  | sd_write_task
  deriving DecidableEq, Repr

/-- Function `SD_write`: the new recorder and the task it creates, if any. -/
def SD_write (s : recorder) : recorder × Option sd_task :=
  match s.current_state with
  | RECORDER_STATE_IDLE =>
    if s.cycle_count = MAX_CICLE_COUNT - 10 then (s, some sd_task.sd_init_task) else (s, none)
  | RECORDER_STATE_RECORDING =>
    ({ s with current_state := RECORDER_STATE_IDLE }, some sd_task.sd_write_task)
  | _ => (s, none)

/-- Function `sd_init_task`; `open_ok` tells whether `sd_card_open(current_filename, "ab")`
succeeds (it creates the file when it is missing). -/
def sd_init_task (open_ok : Bool) (s : recorder) : recorder :=
  if !open_ok then { s with audio_file := false }
  else
    { s with
      audio_file := true
      card_file := some (s.card_file.getD [])
      current_state := RECORDER_STATE_RECORDING
      sd_write_pos := 0 }

/-- Byte `b` of the arena `(uint8_t*)psram_buffer` (16-bit words, little-endian). -/
def psram_byte (psram_buffer : Nat → Nat) (b : Nat) : Nat :=
  if b % 2 = 0 then psram_buffer (b / 2) % 256 else psram_buffer (b / 2) / 256 % 256

/-- One iteration of the `while (sd_write_pos < PSRAM_BUFFER_SIZE)` loop of `sd_write_task`,
entered with the loop condition true. `fwrite_ret pos n` is the value returned by the
`fwrite` of `n` bytes taken at arena offset `pos` (at most `n`); that many bytes reach the
file. The boolean tells whether the loop goes on (false after `break`). -/
def drain_iteration (fwrite_ret : Nat → Nat → Nat) (s : recorder) : recorder × Bool :=
  let available_bytes := PSRAM_BUFFER_SIZE - s.sd_write_pos
  let bytes_to_write := if available_bytes < BLOCK_SD_WRITE then available_bytes else BLOCK_SD_WRITE
  let written := min (fwrite_ret s.sd_write_pos bytes_to_write) bytes_to_write
  let s1 := { s with
    card_file := s.card_file.map
      (fun f => f ++ (List.range' s.sd_write_pos written).map (psram_byte s.psram_buffer)) }
  if written ≠ bytes_to_write then (s1, false)
  else ({ s1 with sd_write_pos := s.sd_write_pos + written }, true)

/-- The `while (sd_write_pos < PSRAM_BUFFER_SIZE)` loop of `sd_write_task`; the first
argument is recursion fuel. -/
def drain_loop (fwrite_ret : Nat → Nat → Nat) : Nat → recorder → recorder
  | 0, s => s
  | fuel + 1, s =>
    if s.sd_write_pos < PSRAM_BUFFER_SIZE then
      if (drain_iteration fwrite_ret s).2 then
        drain_loop fwrite_ret fuel (drain_iteration fwrite_ret s).1
      else (drain_iteration fwrite_ret s).1
    else s

/-- The end of `sd_write_task`, after the loop: the file is closed and
`current_state = RECORDER_STATE_IDLE; i2s_write_pos = 0; sd_write_pos = 0; cycle_count = 0;`. -/
def drain_epilogue (s : recorder) : recorder :=
  { s with
    audio_file := false
    current_state := RECORDER_STATE_IDLE
    i2s_write_pos := 0
    sd_write_pos := 0
    cycle_count := 0 }

/-- Function `sd_write_task`, up to its closing `vTaskDelete(NULL)`. Every iteration that
goes on advances `sd_write_pos` by at least one byte, so `PSRAM_BUFFER_SIZE` iterations
are more than the loop can make. -/
def sd_write_task (fwrite_ret : Nat → Nat → Nat) (s : recorder) : recorder :=
  drain_epilogue (drain_loop fwrite_ret PSRAM_BUFFER_SIZE s)

/-- The recorder after `audio_recorder_init` succeeds. -/
def audio_recorder_init (s : recorder) : recorder :=
  { s with
    i2s_write_pos := 0
    sd_write_pos := 0
    cycle_count := 0
    current_state := RECORDER_STATE_IDLE }

/-! ### A recording session

The capture loop runs in the calling task; the tasks created by `SD_write` run beside it,
on the other core and without any lock. Their interleaving with the capture loop is taken
at the grain of the statements of the loop body `I2S_read(); SD_write(); cycle_count++;`
and of one task step: in each capture cycle the oldest pending task performs the number
of steps the environment allots, some between `I2S_read()` and `SD_write()`, some between
`SD_write()` and `cycle_count++`, the rest after `cycle_count++` (while the read of the
next cycle waits for its samples). A step of `sd_init_task` is the whole task; a step of
`sd_write_task` is one iteration of its loop, the task ending (with its epilogue) in the
step in which the loop ends. The copy loop of `I2S_read` and a task step are not divided
further. -/

/-- What happens around the recorder during one call of `audio_recorder_start`. -/
structure session_env where
  /-- Whether `sd_card_open(filename, "wb")` in `create_wav_header` succeeds. -/
  create_ok : Bool
  /-- Number of iterations of the capture loop before the clock reaches `duration_ms`. -/
  cycles : Nat
  /-- The `readsize` that `i2s_channel_read` reports in capture cycle `k`. -/
  readsize : Nat → Nat
  /-- The content of `rx_buf` after `i2s_channel_read` in capture cycle `k`. -/
  rx_buf : Nat → Nat → Nat
  /-- Whether the append-open of the `k`-th run of `sd_init_task` succeeds. -/
  open_ok : Nat → Bool
  /-- The return value of `fwrite` in the `k`-th run of `sd_write_task`, by arena offset and
  requested size. -/
  fwrite_ret : Nat → Nat → Nat → Nat
  /-- Number of task steps performed during capture cycle `k`. -/
  steps : Nat → Nat
  /-- How many of the steps of capture cycle `k` are performed between `I2S_read()` and
  `SD_write()` (at most `steps k`). -/
  steps_after_read : Nat → Nat
  /-- How many of the steps of capture cycle `k` that are left are performed between
  `SD_write()` and `cycle_count++`; the others are performed after `cycle_count++`. -/
  steps_after_SD_write : Nat → Nat

/-- Events worth recording in a session. -/
inductive event where
  /-- `SD_write` created the task in capture cycle `k`. -/
  | created (task : sd_task) (k : Nat) : event
  /-- The append-open in `sd_init_task` failed. -/
  | open_failed : event
  /-- The drain left its loop through `break` (the `fwrite` at this `sd_write_pos` was short). -/
  | short_write (sd_write_pos : Nat) : event
  deriving DecidableEq, Repr

/-- A session in progress: the recorder, the pending tasks (oldest first), the numbers of
runs of the two tasks that have started, and the events so far (latest first). -/
structure session where
  r : recorder
  tasks : List sd_task
  inits : Nat
  drains : Nat
  log : List event

/-- One step of the oldest pending task. -/
def task_step (env : session_env) (x : session) : session :=
  match x.tasks with
  | [] => x
  | sd_task.sd_init_task :: rest =>
    { x with
      r := sd_init_task (env.open_ok x.inits) x.r
      tasks := rest
      inits := x.inits + 1
      log := if env.open_ok x.inits then x.log else event.open_failed :: x.log }
  | sd_task.sd_write_task :: rest =>
    if x.r.sd_write_pos < PSRAM_BUFFER_SIZE then
      if (drain_iteration (env.fwrite_ret x.drains) x.r).2 then
        { x with r := (drain_iteration (env.fwrite_ret x.drains) x.r).1 }
      else
        { x with
          r := drain_epilogue (drain_iteration (env.fwrite_ret x.drains) x.r).1
          tasks := rest
          drains := x.drains + 1
          log := event.short_write x.r.sd_write_pos :: x.log }
    else
      { x with r := drain_epilogue x.r, tasks := rest, drains := x.drains + 1 }

/-- Several task steps in a row. -/
def task_steps (env : session_env) : Nat → session → session
  | 0, x => x
  | n + 1, x => task_steps env n (task_step env x)

/-- The task steps of capture cycle `k` that land between `I2S_read()` and `SD_write()`. -/
def steps_before_SD_write (env : session_env) (k : Nat) : Nat :=
  min (env.steps_after_read k) (env.steps k)

/-- The task steps of capture cycle `k` that land between `SD_write()` and `cycle_count++`. -/
def steps_before_increment (env : session_env) (k : Nat) : Nat :=
  min (env.steps_after_SD_write k) (env.steps k - steps_before_SD_write env k)

/-- The task steps of capture cycle `k` that land after `cycle_count++`. -/
def steps_after_increment (env : session_env) (k : Nat) : Nat :=
  env.steps k - steps_before_SD_write env k - steps_before_increment env k

/-- The session at the moment `SD_write()` is called in capture cycle `k`: `I2S_read()` has
been made and the task steps that land before `SD_write()` have been taken. -/
def at_SD_write (env : session_env) (k : Nat) (x : session) : session :=
  task_steps env (steps_before_SD_write env k)
    { x with r := I2S_read (env.rx_buf k) (env.readsize k) x.r }

/-- The call `SD_write()` of capture cycle `k` in a session: the recorder changes as
`SD_write` says and the task it creates, if any, becomes pending. -/
def SD_write_step (k : Nat) (x : session) : session :=
  { x with
    r := (SD_write x.r).1
    tasks := x.tasks ++ (SD_write x.r).2.toList
    log := match (SD_write x.r).2 with
      | some t => event.created t k :: x.log
      | none => x.log }

/-- The statement `cycle_count++` in a session (`cycle_count` is an `unsigned long` of 32
bits). -/
def increment_cycle_count (x : session) : session :=
  { x with r := { x.r with cycle_count := (x.r.cycle_count + 1) % 2 ^ 32 } }

/-- Capture cycle `k` from the call of `SD_write()` on: `SD_write();`, the task steps that
land before `cycle_count++`, `cycle_count++;`, and the task steps that land after it. -/
def cycle_from_SD_write (env : session_env) (k : Nat) (x : session) : session :=
  task_steps env (steps_after_increment env k)
    (increment_cycle_count (task_steps env (steps_before_increment env k) (SD_write_step k x)))

/-- Capture cycle `k`: the body `I2S_read(); SD_write(); cycle_count++;` of the capture
loop, with the task steps that the environment allots to this cycle. -/
def capture_cycle (env : session_env) (k : Nat) (x : session) : session :=
  cycle_from_SD_write env k (at_SD_write env k x)

/-- The capture loop `while ((esp_timer_get_time() / 1000 - start_time) < duration_ms)`:
`n` cycles starting with cycle `k`. -/
def capture_loop (env : session_env) : Nat → Nat → session → session
  | 0, _, x => x
  | n + 1, k, x => capture_loop env n (k + 1) (capture_cycle env k x)

/-- A session with no pending task and no event, around the recorder `s`. -/
def session_of (s : recorder) : session :=
  { r := s, tasks := [], inits := 0, drains := 0, log := [] }

/-- The session when the capture loop of `audio_recorder_start` starts: the header has
been written and `current_state = RECORDER_STATE_IDLE; cycle_count = i2s_write_pos =
sd_write_pos = 0;`. -/
def session_start (env : session_env) (s : recorder) : session :=
  session_of
    { s with
      card_file := (create_wav_header env.create_ok s.card_file).2
      current_state := RECORDER_STATE_IDLE
      cycle_count := 0
      i2s_write_pos := 0
      sd_write_pos := 0 }

/-- Function `audio_recorder_start(filename, minutes)`: `filename_ok` tells that `filename`
is not `NULL`. The result is the return value and the session at that moment. The return
value is `none` when the function does not return: the synchronous call
`sd_write_task(NULL)` ends with `vTaskDelete(NULL)`, which deletes the calling task, so
neither `update_wav_header` nor `return true` is reached on that path. -/
def audio_recorder_start (env : session_env) (filename_ok : Bool) (minutes : Nat)
    (s : recorder) : Option Bool × session :=
  if !filename_ok || minutes = 0 then (some false, session_of s)
  else if !(create_wav_header env.create_ok s.card_file).1 then (some false, session_of s)
  else
    let x := capture_loop env env.cycles 0 (session_start env s)
    if 0 < x.r.i2s_write_pos ∧ x.r.current_state = RECORDER_STATE_RECORDING then
      (none, { x with
        r := sd_write_task (env.fwrite_ret x.drains) x.r
        drains := x.drains + 1
        log := if (drain_loop (env.fwrite_ret x.drains) PSRAM_BUFFER_SIZE x.r).sd_write_pos
            < PSRAM_BUFFER_SIZE
          then event.short_write
            (drain_loop (env.fwrite_ret x.drains) PSRAM_BUFFER_SIZE x.r).sd_write_pos :: x.log
          else x.log })
    else
      (some true, { x with r := { x.r with card_file := (update_wav_header x.r.card_file).2 } })

/-- The recorder at boot: the static initialisers of the globals, no container file. -/
def recorder_boot : recorder :=
  { psram_buffer := fun _ => 0
    current_state := RECORDER_STATE_IDLE
    audio_file := false
    i2s_write_pos := 0
    sd_write_pos := 0
    cycle_count := 0
    card_file := none }

/-- A two-minute session (1378 capture cycles of 3840 samples at 44100 Hz) with full reads,
in which every task gets one step per capture cycle and the append-open of the container
fails. -/
def env_open_fails : session_env :=
  { create_ok := true
    cycles := 1378
    readsize := fun _ => 15360
    rx_buf := fun k _ => k + 1
    open_ok := fun _ => false
    fwrite_ret := fun _ _ _ => 0
    steps := fun _ => 1
    steps_after_read := fun _ => 0
    steps_after_SD_write := fun _ => 0 }

/-- The same session with a card on which the append-open succeeds and the first block
write of the drain returns 0. -/
def env_short_write : session_env :=
  { create_ok := true
    cycles := 1378
    readsize := fun _ => 15360
    rx_buf := fun k _ => k + 1
    open_ok := fun _ => true
    fwrite_ret := fun _ _ _ => 0
    steps := fun _ => 1
    steps_after_read := fun _ => 0
    steps_after_SD_write := fun _ => 0 }

/-- A two-minute session with full reads on a card that opens, in which the drain, once
created, gets no step: `sd_init_task` runs right after the capture cycle that creates it,
and `sd_write_task` stays in flight without writing a block. -/
def env_stalled_drain : session_env :=
  { create_ok := true
    cycles := 1378
    readsize := fun _ => 15360
    rx_buf := fun k _ => k + 1
    open_ok := fun _ => true
    fwrite_ret := fun _ _ n => n
    steps := fun k => if k ≤ 990 then 1 else 0
    steps_after_read := fun _ => 0
    steps_after_SD_write := fun _ => 0 }

/-! ### Full reads in closed form

With `readsize = sizeof(rx_buf) = 15360` a read stores 3840 words; these definitions give
its effect, and that of the capture loop, without running the inner loop. They are
proved equal to the functions above and serve to evaluate long sessions. -/

/-- The effect of `I2S_read` with a full read, the cursor being a multiple of 3840. -/
def I2S_read_full (rx_buf : Nat → Nat) (s : recorder) : recorder :=
  { s with
    psram_buffer := fun j =>
      if s.i2s_write_pos ≤ j ∧ j < s.i2s_write_pos + 3840 then rx_buf (2 * (j - s.i2s_write_pos))
      else s.psram_buffer j
    i2s_write_pos := (s.i2s_write_pos + 3840) % 3840000 }

/-- Function `at_SD_write` with the read in closed form. -/
def at_SD_write_full (env : session_env) (k : Nat) (x : session) : session :=
  task_steps env (steps_before_SD_write env k)
    { x with r := I2S_read_full (env.rx_buf k) x.r }

/-- Function `capture_cycle` with the read in closed form. -/
def capture_cycle_full (env : session_env) (k : Nat) (x : session) : session :=
  cycle_from_SD_write env k (at_SD_write_full env k x)

/-- Function `capture_loop` with the reads in closed form. -/
def capture_loop_full (env : session_env) : Nat → Nat → session → session
  | 0, _, x => x
  | n + 1, k, x => capture_loop_full env n (k + 1) (capture_cycle_full env k x)

/-! ## Further definitions: header fields, `check_calendar`, access traces -/

/-- `#define SAMPLERATE 44100` -/
abbrev SAMPLERATE : Nat := 44100

/-- The little-endian 16-bit value stored at byte offset `off` of a file. -/
def read_le16 (f : List Nat) (off : Nat) : Nat :=
  f.getD off 0 + 256 * f.getD (off + 1) 0

/-- The four bytes at offset `off` of a file. -/
def bytes_at (f : List Nat) (off : Nat) : List Nat := (f.drop off).take 4

/-- The value `current_value` of `check_calendar`: `(g_calendar.file_exists && current_hour <
HOURS_IN_DAY && current_day < DAYS_IN_WEEK) ? g_calendar.schedule[current_hour][current_day] : 0`. -/
def current_value_of (g : calendar_internal_t) (current_hour current_day : Nat) : Int :=
  if g.file_exists && decide (current_hour < HOURS_IN_DAY) && decide (current_day < DAYS_IN_WEEK)
  then g.schedule current_hour current_day else 0

/-- The two values on which `check_calendar` dispatches, for the data lines `lines` of the
calendar file and the clock reading `tm_hour`, `tm_wday`, `tm_min`: `current_value` and
`next_change = get_next_change_time(current_hour, current_day, current_value)`. -/
def check_calendar_decision (lines : List csv_line) (tm_hour tm_wday tm_min : Nat) : Int × Nat :=
  (current_value_of (load_calendar lines) tm_hour tm_wday,
   get_next_change_time (load_calendar lines) tm_min tm_hour tm_wday
     (current_value_of (load_calendar lines) tm_hour tm_wday))

/-- Function `check_calendar` from the loader on, as the trace of its calls. -/
def check_calendar (outcome : Nat → Option Bool) (fuel : Nat) (lines : List csv_line)
    (tm_hour tm_wday tm_min : Nat) : List action :=
  dispatch outcome fuel (check_calendar_decision lines tm_hour tm_wday tm_min).1
    (check_calendar_decision lines tm_hour tm_wday tm_min).2

/-- Whether `get_next_change_time` leaves through its last statement, `return 60` after
the warning "No change found, defaulting to 60 minutes". -/
def no_change_fallback (g : calendar_internal_t) (tm_min : Nat)
    (current_hour current_day : Nat) (current_value : Int) : Bool :=
  if !g.file_exists || g.schedule current_hour current_day ≠ current_value then false
  else
    match change_scan g current_value (HOURS_IN_DAY * DAYS_IN_WEEK - 1)
        (advance_hour current_hour current_day).1 (advance_hour current_hour current_day).2
        (60 - (tm_min : Int)) with
    | some _ => false
    | none => if current_value = RECORD_MODE ∧ g.all_ones = true then false else true

/-- The argument `minutes * 60 * 1000000ULL` that `enter_deep_sleep(minutes)` passes to
`esp_sleep_enable_timer_wakeup`, a `uint64_t`. -/
def enter_deep_sleep (minutes : Nat) : Nat := minutes * 60 * 1000000 % 2 ^ 64

/-- The calls `fwrite((uint8_t*)psram_buffer + sd_write_pos, 1, bytes_to_write, audio_file)`
that the loop of `sd_write_task` issues, in order: `sd_write_pos`, `bytes_to_write` and the
value returned. The recursion is that of `drain_loop`. -/
def drain_writes (fwrite_ret : Nat → Nat → Nat) : Nat → recorder → List (Nat × Nat × Nat)
  | 0, _ => []
  | fuel + 1, s =>
    if s.sd_write_pos < PSRAM_BUFFER_SIZE then
      (s.sd_write_pos,
        (if PSRAM_BUFFER_SIZE - s.sd_write_pos < BLOCK_SD_WRITE
          then PSRAM_BUFFER_SIZE - s.sd_write_pos else BLOCK_SD_WRITE),
        min (fwrite_ret s.sd_write_pos
          (if PSRAM_BUFFER_SIZE - s.sd_write_pos < BLOCK_SD_WRITE
            then PSRAM_BUFFER_SIZE - s.sd_write_pos else BLOCK_SD_WRITE))
          (if PSRAM_BUFFER_SIZE - s.sd_write_pos < BLOCK_SD_WRITE
            then PSRAM_BUFFER_SIZE - s.sd_write_pos else BLOCK_SD_WRITE)) ::
        (if (drain_iteration fwrite_ret s).2 then
          drain_writes fwrite_ret fuel (drain_iteration fwrite_ret s).1
        else [])
    else []

/-- The array accesses `psram_buffer[i2s_write_pos] = rx_buf[i]` that the loop of `I2S_read`
makes, in order: the index into `psram_buffer` and the index into `rx_buf`. The recursion
is that of `I2S_read_loop`. -/
def I2S_read_accesses (readsize : Nat) : Nat → Nat → Nat → List (Nat × Nat)
  | 0, _, _ => []
  | fuel + 1, i, i2s_write_pos =>
    if i < readsize / 2 then
      (i2s_write_pos, i) ::
        I2S_read_accesses readsize fuel (i + 2)
          (if i2s_write_pos + 1 = PSRAM_BUFFER_SIZE / 2 then 0 else i2s_write_pos + 1)
    else []

/-- The number of full reads (3840 words each) that fit between the capture cursor and the
end of the arena: the capture cycles remaining before the cursor wraps. -/
def cycles_until_wrap (i2s_write_pos : Nat) : Nat :=
  (PSRAM_BUFFER_SIZE / 2 - i2s_write_pos) / 3840

/-- The recorder is in one of the two states that the code assigns. -/
def idle_or_recording (s : recorder) : Prop :=
  s.current_state = RECORDER_STATE_IDLE ∨ s.current_state = RECORDER_STATE_RECORDING

/-- The cursor bounds: `i2s_write_pos` indexes a word of the arena and `sd_write_pos` is
at most its size in bytes. -/
def cursors_in_bounds (s : recorder) : Prop :=
  s.i2s_write_pos < PSRAM_BUFFER_SIZE / 2 ∧ s.sd_write_pos ≤ PSRAM_BUFFER_SIZE

/-- A one-minute session (689 capture cycles of 3840 samples at 44100 Hz) with full reads on
a good card, in which every task gets one step per capture cycle. -/
def env_one_minute : session_env :=
  { create_ok := true
    cycles := 689
    readsize := fun _ => 15360
    rx_buf := fun k _ => k + 1
    open_ok := fun _ => true
    fwrite_ret := fun _ _ n => n
    steps := fun _ => 1
    steps_after_read := fun _ => 0
    steps_after_SD_write := fun _ => 0 }

/-- A session that is filling the arena with no task pending: the state is Idle,
`cycle_count` is `c` and the capture cursor is `w` reads of 3840 words from the start of
the arena. -/
def idle_fill (c w : Nat) (x : session) : Prop :=
  x.tasks = [] ∧ x.r.current_state = RECORDER_STATE_IDLE ∧ x.r.cycle_count = c ∧
    x.r.i2s_write_pos = 3840 * w

/-- The first fill of the arena after `n` capture cycles with full reads: no task has been
created yet, the state is Idle, `cycle_count` is `n` and the capture cursor is `n` reads
of 3840 words from the start of the arena. -/
def first_fill (n : Nat) (x : session) : Prop := idle_fill n n x

/-- The session of `env_stalled_drain` cut after 991 capture cycles: the capture loop ends
right after `sd_init_task` has run, in state Recording. -/
def env_exit_in_recording : session_env :=
  { env_stalled_drain with cycles := 991 }

/-- The session of `env_short_write` in which the one task step of each capture cycle is
taken between `SD_write()` and `cycle_count++`: the drain is created in capture cycle
991, its first write is short, and its epilogue runs in the middle of that cycle. -/
def env_reset_mid_cycle : session_env :=
  { env_short_write with cycles := 1982, steps_after_SD_write := fun _ => 1 }

/-! ## Schedule engine: auxiliary facts -/

theorem advance_hour_index (s : Nat) :
    advance_hour (s % 24) (s / 24 % 7) = ((s + 1) % 24, (s + 1) / 24 % 7) := by
  unfold advance_hour
  by_cases h : s % 24 + 1 = 24
  · rw [if_pos h]
    have h1 : (s + 1) % 24 = 0 := by omega
    have h2 : (s / 24 % 7 + 1) % 7 = (s + 1) / 24 % 7 := by omega
    simp [h1, h2]
  · rw [if_neg h]
    have h1 : (s + 1) % 24 = s % 24 + 1 := by omega
    have h2 : (s + 1) / 24 = s / 24 := by omega
    simp [h1, h2]

theorem index_of_hour_day (h d : Nat) (hh : h < 24) (hd : d < 7) :
    (d * 24 + h) % 24 = h ∧ (d * 24 + h) / 24 % 7 = d := by
  constructor <;> omega

/-- The scan loop, read on hour-of-week indices: it looks at the indices
`s, s + 1, ..., s + n - 1` in order. -/
theorem change_scan_index (g : calendar_internal_t) (v : Int) (n : Nat) :
    ∀ (s : Nat) (mp : Int),
      change_scan g v n (s % 24) (s / 24 % 7) mp =
        if (List.range' s n).any (fun i => decide (cell_at g i ≠ v)) then
          some (mp + 60 * (((List.range' s n).takeWhile
            (fun i => decide (cell_at g i = v))).length : Int))
        else none := by
  induction n with
  | zero => intro s mp; simp [change_scan]
  | succ n ih =>
    intro s mp
    rw [change_scan, advance_hour_index]
    by_cases hc : g.schedule (s % 24) (s / 24 % 7) = v
    · have hc2 : cell_at g s = v := hc
      simp only [hc, ne_eq, not_true_eq_false, if_false]
      rw [ih (s + 1) (mp + 60)]
      simp only [List.range'_succ, List.any_cons, hc2, ne_eq, not_true_eq_false, decide_False,
        Bool.false_or, List.takeWhile_cons, decide_True, if_true, List.length_cons]
      split
      · congr 1
        push_cast
        ring
      · rfl
    · have hc2 : cell_at g s ≠ v := hc
      simp [hc, hc2, List.range'_succ]

theorem any_range_found (p : Nat → Bool) (n : Nat) :
    ∀ s : Nat, (List.range' s n).any p = true →
      ((List.range' s n).takeWhile (fun i => !p i)).length < n ∧
      p (s + ((List.range' s n).takeWhile (fun i => !p i)).length) = true ∧
      ∀ j, j < ((List.range' s n).takeWhile (fun i => !p i)).length → p (s + j) = false := by
  induction n with
  | zero => intro s h; simp at h
  | succ n ih =>
    intro s h
    rw [List.range'_succ] at h ⊢
    by_cases hp : p s = true
    · simp [hp]
    · have hp2 : p s = false := by simpa using hp
      simp only [List.any_cons, hp2, Bool.false_or] at h
      obtain ⟨h1, h2, h3⟩ := ih (s + 1) h
      simp only [List.takeWhile_cons, hp2, Bool.not_false, if_true, List.length_cons]
      refine ⟨by omega, ?_, ?_⟩
      · rw [← h2]; congr 1; omega
      · intro j hj
        cases j with
        | zero => simpa using hp2
        | succ j =>
          have := h3 j (by omega)
          rw [← this]; congr 1; omega

theorem takeWhile_range_length_le (p : Nat → Bool) (s n : Nat) :
    ((List.range' s n).takeWhile p).length ≤ n := by
  have h := (List.takeWhile_sublist (l := List.range' s n) p).length_le
  simpa using h

theorem to_uint64_minutes (m k : Nat) (hm : m < 60) (hk : k ≤ 167) :
    to_uint64 ((60 : Int) - (m : Int) + 60 * (k : Int)) = (60 - m) + 60 * k := by
  unfold to_uint64
  have h0 : (0 : Int) ≤ (60 : Int) - (m : Int) + 60 * (k : Int) := by omega
  have h1 : (60 : Int) - (m : Int) + 60 * (k : Int) < 2 ^ 64 := by
    have : (60 : Int) - (m : Int) + 60 * (k : Int) ≤ 10080 := by omega
    exact lt_of_le_of_lt this (by norm_num)
  rw [Int.emod_eq_of_lt h0 h1]
  omega

/-- On valid clock readings the code computes the reference lookahead. -/
theorem get_next_change_time_reference (g : calendar_internal_t) (m h d : Nat) (v : Int)
    (hh : h < 24) (hd : d < 7) (hm : m < 60) :
    get_next_change_time g m h d v = minutesUntilNextChange g m h d v := by
  unfold get_next_change_time minutesUntilNextChange
  by_cases hc : g.file_exists = false ∨ g.schedule h d ≠ v
  · rw [if_pos hc, if_pos (by simpa using hc)]
  · rw [if_neg hc, if_neg (by simpa using hc)]
    obtain ⟨e1, e2⟩ := index_of_hour_day h d hh hd
    have e3 : advance_hour h d = ((d * 24 + h + 1) % 24, (d * 24 + h + 1) / 24 % 7) := by
      have := advance_hour_index (d * 24 + h)
      rwa [e1, e2] at this
    simp only [e3]
    have e4 : HOURS_IN_DAY * DAYS_IN_WEEK - 1 = 167 := rfl
    rw [e4, change_scan_index]
    by_cases ha : (List.range' (d * 24 + h + 1) 167).any (fun i => decide (cell_at g i ≠ v)) = true
    · rw [if_pos ha, if_pos ha]
      exact to_uint64_minutes m _ hm (takeWhile_range_length_le _ _ _)
    · rw [if_neg ha, if_neg ha]

theorem decide_eq_not_decide_ne (g : calendar_internal_t) (v : Int) :
    (fun i => decide (cell_at g i = v)) = fun i => !(decide (cell_at g i ≠ v)) := by
  funext i
  simp

/-- When one of the 167 following hours differs, the run of unchanged hours ends
inside them, at a differing hour. -/
theorem unchanged_run_spec (g : calendar_internal_t) (v : Int) (s : Nat)
    (ha : (List.range' s 167).any (fun i => decide (cell_at g i ≠ v)) = true) :
    ((List.range' s 167).takeWhile (fun i => decide (cell_at g i = v))).length < 167 ∧
    cell_at g (s + ((List.range' s 167).takeWhile
      (fun i => decide (cell_at g i = v))).length) ≠ v ∧
    ∀ j, j < ((List.range' s 167).takeWhile (fun i => decide (cell_at g i = v))).length →
      cell_at g (s + j) = v := by
  have h := any_range_found (fun i => decide (cell_at g i ≠ v)) 167 s ha
  rw [← decide_eq_not_decide_ne] at h
  obtain ⟨h1, h2, h3⟩ := h
  refine ⟨h1, by simpa using h2, ?_⟩
  intro j hj
  simpa using h3 j hj

/-- Some cell of the grid differs from the current cell's value exactly when one
of the 167 following hours does. -/
theorem following_differs_of_cell (g : calendar_internal_t) (v : Int) (h d h2 d2 : Nat)
    (hh : h < 24) (hd : d < 7) (hh2 : h2 < 24) (hd2 : d2 < 7)
    (hcur : g.schedule h d = v) (hne : g.schedule h2 d2 ≠ v) :
    (List.range' (d * 24 + h + 1) 167).any (fun i => decide (cell_at g i ≠ v)) = true := by
  rw [List.any_eq_true]
  have hidx : d2 * 24 + h2 ≠ d * 24 + h := by
    intro e
    have e1 : h2 = h := by omega
    have e2 : d2 = d := by omega
    subst e1; subst e2
    exact hne hcur
  refine ⟨d * 24 + h + 1 + (d2 * 24 + h2 + 167 - (d * 24 + h)) % 168, ?_, ?_⟩
  · simp only [List.mem_range', Nat.one_mul]
    exact ⟨(d2 * 24 + h2 + 167 - (d * 24 + h)) % 168, by omega, rfl⟩
  · have e1 : (d * 24 + h + 1 + (d2 * 24 + h2 + 167 - (d * 24 + h)) % 168) % 24 = h2 := by omega
    have e2 : (d * 24 + h + 1 + (d2 * 24 + h2 + 167 - (d * 24 + h)) % 168) / 24 % 7 = d2 := by
      omega
    simp only [cell_at, e1, e2]
    simpa using hne

/-! ## WAV header: auxiliary facts -/

theorem wav_header_length : wav_header.length = 44 := by decide

theorem le32_length (x : Nat) : (le32 x).length = 4 := rfl

theorem pwrite_length (f bytes : List Nat) (off : Nat) (h : off + bytes.length ≤ f.length) :
    (pwrite f off bytes).length = f.length := by
  unfold pwrite
  simp only [List.length_append, List.length_take, List.length_drop]
  omega

theorem pwrite_getElem? (f bytes : List Nat) (off i : Nat) (h : off + bytes.length ≤ f.length) :
    (pwrite f off bytes)[i]? =
      if i < off then f[i]? else if i < off + bytes.length then bytes[i - off]? else f[i]? := by
  unfold pwrite
  have hlen : (f.take off).length = off := by simp; omega
  by_cases h1 : i < off
  · rw [if_pos h1, List.append_assoc, List.getElem?_append_left (by omega)]
    rw [List.getElem?_take_of_lt h1]
  · rw [if_neg h1]
    rw [List.append_assoc, List.getElem?_append_right (by omega), hlen]
    by_cases h2 : i < off + bytes.length
    · rw [if_pos h2, List.getElem?_append_left (by omega)]
    · rw [if_neg h2, List.getElem?_append_right (by omega), List.getElem?_drop]
      congr 1
      omega

theorem read_le32_le32 (x : Nat) (hx : x < 2 ^ 32) :
    (le32 x).getD 0 0 + 256 * (le32 x).getD 1 0 + 65536 * (le32 x).getD 2 0 +
      16777216 * (le32 x).getD 3 0 = x := by
  simp only [le32, List.getD_cons_zero, List.getD_cons_succ]
  omega

/-- The two size fields after the two patches of `update_wav_header`. -/
theorem patched_fields (f : List Nat) (r d : Nat) (h : 44 ≤ f.length)
    (hr : r < 2 ^ 32) (hd : d < 2 ^ 32) :
    read_le32 (pwrite (pwrite f 4 (le32 r)) 40 (le32 d)) 4 = r ∧
    read_le32 (pwrite (pwrite f 4 (le32 r)) 40 (le32 d)) 40 = d := by
  have hl : (pwrite f 4 (le32 r)).length = f.length := pwrite_length f _ 4 (by simp [le32]; omega)
  have key : ∀ i, (pwrite (pwrite f 4 (le32 r)) 40 (le32 d))[i]? =
      if i < 4 then f[i]? else if i < 8 then (le32 r)[i - 4]? else
        if i < 40 then f[i]? else if i < 44 then (le32 d)[i - 40]? else f[i]? := by
    intro i
    rw [pwrite_getElem? _ _ _ _ (by rw [hl]; simp [le32]; omega),
      pwrite_getElem? _ _ _ _ (by simp [le32]; omega)]
    simp only [le32_length]
    split_ifs <;> first | rfl | omega
  constructor
  · unfold read_le32
    simp only [List.getD_eq_getElem?_getD, key]
    simpa [List.getD_eq_getElem?_getD] using read_le32_le32 r hr
  · unfold read_le32
    simp only [List.getD_eq_getElem?_getD, key]
    simpa [List.getD_eq_getElem?_getD] using read_le32_le32 d hd

/-- Bytes outside the two size fields are not touched by the two patches. -/
theorem patched_other (f : List Nat) (r d : Nat) (h : 44 ≤ f.length) (i : Nat)
    (h4 : ¬ (4 ≤ i ∧ i < 8)) (h40 : ¬ (40 ≤ i ∧ i < 44)) :
    (pwrite (pwrite f 4 (le32 r)) 40 (le32 d))[i]? = f[i]? := by
  have hl : (pwrite f 4 (le32 r)).length = f.length := pwrite_length f _ 4 (by simp [le32]; omega)
  rw [pwrite_getElem? _ _ _ _ (by rw [hl]; simp [le32]; omega),
    pwrite_getElem? _ _ _ _ (by simp [le32]; omega)]
  simp only [le32_length]
  split_ifs <;> first | rfl | omega

theorem patched_length (f : List Nat) (r d : Nat) (h : 44 ≤ f.length) :
    (pwrite (pwrite f 4 (le32 r)) 40 (le32 d)).length = f.length := by
  have hl : (pwrite f 4 (le32 r)).length = f.length := pwrite_length f _ 4 (by simp [le32]; omega)
  rw [pwrite_length _ _ _ (by rw [hl]; simp [le32]; omega), hl]

/-- Patching the same two fields again changes nothing. -/
theorem patched_twice (f : List Nat) (r d : Nat) (h : 44 ≤ f.length) :
    pwrite (pwrite (pwrite (pwrite f 4 (le32 r)) 40 (le32 d)) 4 (le32 r)) 40 (le32 d) =
      pwrite (pwrite f 4 (le32 r)) 40 (le32 d) := by
  have hl := patched_length f r d h
  have hl1 : (pwrite f 4 (le32 r)).length = f.length := pwrite_length f _ 4 (by simp [le32]; omega)
  have hl2 : (pwrite (pwrite (pwrite f 4 (le32 r)) 40 (le32 d)) 4 (le32 r)).length = f.length := by
    rw [pwrite_length _ _ _ (by rw [hl]; simp [le32]; omega), hl]
  apply List.ext_getElem?
  intro i
  rw [pwrite_getElem? _ _ _ _ (by rw [hl2]; simp [le32]; omega),
    pwrite_getElem? _ _ _ _ (by rw [hl]; simp [le32]; omega),
    pwrite_getElem? _ _ _ _ (by rw [hl1]; simp [le32]; omega),
    pwrite_getElem? _ _ _ _ (by simp [le32]; omega)]
  simp only [le32_length]
  split_ifs <;> rfl

/-- A file whose size fits the `long` of `ftell` and holds the header gets its two size
fields patched with `size - 8` and `size - 44`. -/
theorem update_wav_header_fits (f : List Nat) (h44 : 44 ≤ f.length) (hfit : f.length < 2 ^ 31) :
    update_wav_header (some f) =
      (true, some (pwrite (pwrite f 4 (le32 (f.length - 8))) 40 (le32 (f.length - 44)))) := by
  have hft : ftell_end f = (f.length : Int) := by
    unfold ftell_end
    rw [if_pos hfit]
  have hnot : ¬ ((f.length : Int) < 44) := by omega
  have hlt32 : (f.length : Int) - 44 < 2 ^ 32 := by
    have h1 : (f.length : Int) < 2 ^ 31 := by exact_mod_cast hfit
    have h2 : (2 : Int) ^ 31 < 2 ^ 32 := by norm_num
    omega
  have hd : (((f.length : Int) - 44) % 2 ^ 32).toNat = f.length - 44 := by
    rw [Int.emod_eq_of_lt (by omega) hlt32]
    omega
  have hr : (f.length - 44 + 36) % 2 ^ 32 = f.length - 8 := by
    have h2 : (2 : Nat) ^ 32 = 2 * 2 ^ 31 := by norm_num
    rw [Nat.mod_eq_of_lt (by omega)]
    omega
  simp only [update_wav_header, hft, if_neg hnot, hd, hr]

/-- A file that is shorter than the header, or whose size does not fit the `long` of
`ftell`, is refused and left as it was. -/
theorem update_wav_header_refuses (f : List Nat) (h : f.length < 44 ∨ 2 ^ 31 ≤ f.length) :
    update_wav_header (some f) = (false, some f) := by
  have hlt : ftell_end f < 44 := by
    unfold ftell_end
    split
    · rcases h with h | h
      · omega
      · omega
    · norm_num
  simp only [update_wav_header, if_pos hlt]

/-! ## Dispatch: auxiliary facts -/

/-- While the sub-sessions succeed, the continuous loop keeps running them, each under
the name generated just before it. -/
theorem continuous_loop_success (outcome : Nat → Option Bool) (fuel : Nat) :
    ∀ j, (∀ i, i < fuel → outcome (j + i) = some true) →
      continuous_loop outcome fuel j (j + 1) j = continuous_trace fuel j := by
  induction fuel with
  | zero => intro j _; rfl
  | succ n ih =>
    intro j h
    have h0 : outcome j = some true := by simpa using h 0 (Nat.succ_pos n)
    have hrest : ∀ i, i < n → outcome (j + 1 + i) = some true := by
      intro i hi
      have := h (i + 1) (by omega)
      rwa [show j + (i + 1) = j + 1 + i by omega] at this
    simp only [continuous_loop, continuous_trace, h0]
    rw [ih (j + 1) hrest]

/-- The continuous loop stops at the first sub-session that reports failure. -/
theorem continuous_loop_failure (outcome : Nat → Option Bool) (k : Nat) :
    ∀ fuel j, k < fuel → (∀ i, i < k → outcome (j + i) = some true) →
      outcome (j + k) = some false →
      continuous_loop outcome fuel j (j + 1) j =
        continuous_trace k j ++ [action.session (j + k) 60 true, action.halt] := by
  induction k with
  | zero =>
    intro fuel j hf _ hfail
    obtain ⟨n, rfl⟩ : ∃ n, fuel = n + 1 := ⟨fuel - 1, by omega⟩
    have hfail2 : outcome j = some false := by simpa using hfail
    simp [continuous_loop, continuous_trace, hfail2]
  | succ k ih =>
    intro fuel j hf h hfail
    obtain ⟨n, rfl⟩ : ∃ n, fuel = n + 1 := ⟨fuel - 1, by omega⟩
    have h0 : outcome j = some true := by simpa using h 0 (Nat.succ_pos k)
    have hrest : ∀ i, i < k → outcome (j + 1 + i) = some true := by
      intro i hi
      have := h (i + 1) (by omega)
      rwa [show j + (i + 1) = j + 1 + i by omega] at this
    have hfail2 : outcome (j + 1 + k) = some false := by
      rwa [show j + (k + 1) = j + 1 + k by omega] at hfail
    simp only [continuous_loop, continuous_trace, h0]
    rw [ih n (j + 1) (by omega) hrest hfail2]
    simp [show j + 1 + k = j + (k + 1) by omega]

/-! ## Recorder: auxiliary facts -/

theorem arena_words : PSRAM_BUFFER_SIZE / 2 = 3840000 := by decide

/-- The capture loop of `I2S_read`, entered at index `i` with the cursor at `pos`, makes
`(readsize / 2 - i + 1) / 2` iterations: it leaves the cursor that many words further,
modulo the capacity, does not touch the words it does not pass, and leaves `rx_buf[i + 2 * t]`
in the `t`-th word it passes. -/
theorem I2S_read_loop_spec (rx_buf : Nat → Nat) (readsize : Nat) (fuel : Nat) :
    ∀ (i : Nat) (buf : Nat → Nat) (pos : Nat), pos < 3840000 →
      (readsize / 2 - i + 1) / 2 ≤ fuel →
      (I2S_read_loop rx_buf readsize fuel i buf pos).2 =
        (pos + (readsize / 2 - i + 1) / 2) % 3840000 ∧
      (∀ j, (∀ t, t < (readsize / 2 - i + 1) / 2 → j ≠ (pos + t) % 3840000) →
        (I2S_read_loop rx_buf readsize fuel i buf pos).1 j = buf j) ∧
      ((readsize / 2 - i + 1) / 2 ≤ 3840000 → ∀ t, t < (readsize / 2 - i + 1) / 2 →
        (I2S_read_loop rx_buf readsize fuel i buf pos).1 ((pos + t) % 3840000) =
          rx_buf (i + 2 * t)) := by
  induction fuel with
  | zero =>
    intro i buf pos hpos hfuel
    have hm : (readsize / 2 - i + 1) / 2 = 0 := by omega
    simp only [I2S_read_loop, hm]
    refine ⟨by omega, fun j _ => trivial, fun _ t ht => absurd ht (Nat.not_lt_zero t)⟩
  | succ n ih =>
    intro i buf pos hpos hfuel
    by_cases hi : i < readsize / 2
    · have hm : (readsize / 2 - i + 1) / 2 = (readsize / 2 - (i + 2) + 1) / 2 + 1 := by omega
      have hpos2 : (if pos + 1 = PSRAM_BUFFER_SIZE / 2 then 0 else pos + 1) = (pos + 1) % 3840000 := by
        rw [arena_words]
        split <;> omega
      have hlt : (pos + 1) % 3840000 < 3840000 := Nat.mod_lt _ (by norm_num)
      obtain ⟨ha, hb, hc⟩ := ih (i + 2) (fun j => if j = pos then rx_buf i else buf j)
        ((pos + 1) % 3840000) hlt (by omega)
      simp only [I2S_read_loop, if_pos hi, hpos2]
      rw [hm]
      generalize (readsize / 2 - (i + 2) + 1) / 2 = m at ha hb hc ⊢
      refine ⟨by rw [ha]; omega, ?_, ?_⟩
      · intro j hj
        rw [hb j (fun t ht => by
          have := hj (t + 1) (by omega)
          omega)]
        have := hj 0 (by omega)
        rw [if_neg (by omega)]
      · intro hcap t ht
        cases t with
        | zero =>
          have e : (pos + 0) % 3840000 = pos := by omega
          rw [e, hb pos (fun t ht2 => by omega)]
          simp
        | succ t =>
          have e : (pos + (t + 1)) % 3840000 = ((pos + 1) % 3840000 + t) % 3840000 := by omega
          rw [e, hc (by omega) t (by omega)]
          congr 1
          omega
    · have hm : (readsize / 2 - i + 1) / 2 = 0 := by omega
      simp only [I2S_read_loop, if_neg hi, hm]
      refine ⟨by omega, fun j _ => trivial, fun _ t ht => absurd ht (Nat.not_lt_zero t)⟩

/-- Function `I2S_read` on a cursor inside the arena: `(readsize / 2 + 1) / 2` words are stored. -/
theorem I2S_read_spec (rx_buf : Nat → Nat) (readsize : Nat) (s : recorder)
    (hpos : s.i2s_write_pos < 3840000) :
    (I2S_read rx_buf readsize s).i2s_write_pos =
        (s.i2s_write_pos + (readsize / 2 + 1) / 2) % 3840000 ∧
      (∀ j, (∀ t, t < (readsize / 2 + 1) / 2 → j ≠ (s.i2s_write_pos + t) % 3840000) →
        (I2S_read rx_buf readsize s).psram_buffer j = s.psram_buffer j) ∧
      ((readsize / 2 + 1) / 2 ≤ 3840000 → ∀ t, t < (readsize / 2 + 1) / 2 →
        (I2S_read rx_buf readsize s).psram_buffer ((s.i2s_write_pos + t) % 3840000) =
          rx_buf (2 * t)) := by
  have h := I2S_read_loop_spec rx_buf readsize (readsize / 2) 0 s.psram_buffer s.i2s_write_pos
    hpos (by omega)
  simp only [Nat.sub_zero, Nat.zero_add] at h
  exact h

/-- Once the header has been created, the value returned by `audio_recorder_start` does
not depend on what the tasks did: it is `true`, unless the call does not return. -/
theorem audio_recorder_start_result (env : session_env) (minutes : Nat) (s : recorder)
    (hmin : minutes ≠ 0) (hok : env.create_ok = true) :
    (audio_recorder_start env true minutes s).1 =
      if 0 < (capture_loop env env.cycles 0 (session_start env s)).r.i2s_write_pos ∧
          (capture_loop env env.cycles 0 (session_start env s)).r.current_state =
            RECORDER_STATE_RECORDING
      then none else some true := by
  unfold audio_recorder_start
  have h1 : (!true || decide (minutes = 0)) = false := by simp [hmin]
  have h2 : (!(create_wav_header env.create_ok s.card_file).1) = false := by
    simp [create_wav_header, hok]
  simp only [h1, h2, Bool.false_eq_true, if_false]
  split <;> rfl

theorem I2S_read_eq_full (rx_buf : Nat → Nat) (s : recorder)
    (hmul : s.i2s_write_pos % 3840 = 0) (hpos : s.i2s_write_pos < 3840000) :
    I2S_read rx_buf 15360 s = I2S_read_full rx_buf s := by
  obtain ⟨ha, hb, hc⟩ := I2S_read_spec rx_buf 15360 s hpos
  have hn : (15360 / 2 + 1) / 2 = 3840 := by norm_num
  rw [hn] at ha hb hc
  have hbuf : (I2S_read rx_buf 15360 s).psram_buffer = (I2S_read_full rx_buf s).psram_buffer := by
    funext j
    show _ = if s.i2s_write_pos ≤ j ∧ j < s.i2s_write_pos + 3840
      then rx_buf (2 * (j - s.i2s_write_pos)) else s.psram_buffer j
    by_cases hj : s.i2s_write_pos ≤ j ∧ j < s.i2s_write_pos + 3840
    · rw [if_pos hj]
      have e : j = (s.i2s_write_pos + (j - s.i2s_write_pos)) % 3840000 := by omega
      have := hc (by norm_num) (j - s.i2s_write_pos) (by omega)
      rw [← e] at this
      exact this
    · rw [if_neg hj]
      exact hb j (fun t ht => by omega)
  have hp : (I2S_read rx_buf 15360 s).i2s_write_pos = (I2S_read_full rx_buf s).i2s_write_pos := ha
  exact recorder.ext hbuf rfl rfl hp rfl rfl rfl

theorem SD_write_i2s_write_pos (s : recorder) : (SD_write s).1.i2s_write_pos = s.i2s_write_pos := by
  unfold SD_write
  split
  · split <;> rfl
  · rfl
  · rfl

theorem drain_iteration_i2s_write_pos (fwrite_ret : Nat → Nat → Nat) (s : recorder) :
    (drain_iteration fwrite_ret s).1.i2s_write_pos = s.i2s_write_pos := by
  unfold drain_iteration
  simp only
  split_ifs <;> rfl

theorem task_step_aligned (env : session_env) (x : session)
    (h : x.r.i2s_write_pos % 3840 = 0 ∧ x.r.i2s_write_pos < 3840000) :
    (task_step env x).r.i2s_write_pos % 3840 = 0 ∧ (task_step env x).r.i2s_write_pos < 3840000 := by
  unfold task_step
  split
  · exact h
  · simp only [sd_init_task]
    split <;> exact h
  · split
    · split
      · simp only [drain_iteration_i2s_write_pos]
        exact h
      · simp [drain_epilogue]
    · simp [drain_epilogue]

theorem task_steps_aligned (env : session_env) (n : Nat) :
    ∀ x : session, (x.r.i2s_write_pos % 3840 = 0 ∧ x.r.i2s_write_pos < 3840000) →
      ((task_steps env n x).r.i2s_write_pos % 3840 = 0 ∧
        (task_steps env n x).r.i2s_write_pos < 3840000) := by
  induction n with
  | zero => intro x h; exact h
  | succ n ih => intro x h; exact ih _ (task_step_aligned env x h)

theorem capture_cycle_eq_full (env : session_env) (k : Nat) (x : session)
    (hfull : ∀ k, env.readsize k = 15360)
    (h : x.r.i2s_write_pos % 3840 = 0 ∧ x.r.i2s_write_pos < 3840000) :
    capture_cycle env k x = capture_cycle_full env k x := by
  unfold capture_cycle capture_cycle_full at_SD_write at_SD_write_full
  rw [hfull k, I2S_read_eq_full _ _ h.1 h.2]

theorem cycle_from_SD_write_aligned (env : session_env) (k : Nat) (x : session)
    (h : x.r.i2s_write_pos % 3840 = 0 ∧ x.r.i2s_write_pos < 3840000) :
    (cycle_from_SD_write env k x).r.i2s_write_pos % 3840 = 0 ∧
      (cycle_from_SD_write env k x).r.i2s_write_pos < 3840000 := by
  unfold cycle_from_SD_write
  apply task_steps_aligned
  have h1 : (SD_write_step k x).r.i2s_write_pos % 3840 = 0 ∧
      (SD_write_step k x).r.i2s_write_pos < 3840000 := by
    simp only [SD_write_step, SD_write_i2s_write_pos]
    exact h
  exact task_steps_aligned env _ _ h1

theorem capture_cycle_full_aligned (env : session_env) (k : Nat) (x : session)
    (h : x.r.i2s_write_pos % 3840 = 0 ∧ x.r.i2s_write_pos < 3840000) :
    (capture_cycle_full env k x).r.i2s_write_pos % 3840 = 0 ∧
      (capture_cycle_full env k x).r.i2s_write_pos < 3840000 := by
  unfold capture_cycle_full at_SD_write_full
  apply cycle_from_SD_write_aligned
  apply task_steps_aligned
  simp only [I2S_read_full]
  omega

/-- With full reads, and the cursor a multiple of 3840 at the start, the capture loop is
the capture loop in closed form. -/
theorem capture_loop_eq_full (env : session_env) (hfull : ∀ k, env.readsize k = 15360)
    (n : Nat) : ∀ (k : Nat) (x : session),
      (x.r.i2s_write_pos % 3840 = 0 ∧ x.r.i2s_write_pos < 3840000) →
      capture_loop env n k x = capture_loop_full env n k x := by
  induction n with
  | zero => intro k x _; rfl
  | succ n ih =>
    intro k x h
    simp only [capture_loop, capture_loop_full]
    rw [capture_cycle_eq_full env k x hfull h]
    exact ih (k + 1) _ (capture_cycle_full_aligned env k x h)

/-! ## Recorder: frames and states -/

theorem drain_iteration_current_state (fwrite_ret : Nat → Nat → Nat) (s : recorder) :
    (drain_iteration fwrite_ret s).1.current_state = s.current_state := by
  unfold drain_iteration
  simp only
  split_ifs <;> rfl

theorem drain_loop_i2s_write_pos (fwrite_ret : Nat → Nat → Nat) (fuel : Nat) :
    ∀ s : recorder, (drain_loop fwrite_ret fuel s).i2s_write_pos = s.i2s_write_pos := by
  induction fuel with
  | zero => intro s; rfl
  | succ n ih =>
    intro s
    simp only [drain_loop]
    split_ifs
    · rw [ih, drain_iteration_i2s_write_pos]
    · rw [drain_iteration_i2s_write_pos]
    · rfl

theorem SD_write_sd_write_pos (s : recorder) : (SD_write s).1.sd_write_pos = s.sd_write_pos := by
  unfold SD_write
  split
  · split <;> rfl
  · rfl
  · rfl

theorem SD_write_idle_or_recording (s : recorder) (h : idle_or_recording s) :
    idle_or_recording (SD_write s).1 := by
  unfold SD_write
  split
  · split <;> exact h
  · exact Or.inl rfl
  · exact h

theorem task_step_idle_or_recording (env : session_env) (x : session)
    (h : idle_or_recording x.r) : idle_or_recording (task_step env x).r := by
  unfold task_step
  split
  · exact h
  · simp only [sd_init_task]
    split
    · exact h
    · exact Or.inr rfl
  · split
    · split
      · unfold idle_or_recording
        rw [drain_iteration_current_state]
        exact h
      · exact Or.inl rfl
    · exact Or.inl rfl

theorem task_steps_idle_or_recording (env : session_env) (n : Nat) :
    ∀ x : session, idle_or_recording x.r → idle_or_recording (task_steps env n x).r := by
  induction n with
  | zero => intro x h; exact h
  | succ n ih => intro x h; exact ih _ (task_step_idle_or_recording env x h)

theorem capture_cycle_idle_or_recording (env : session_env) (k : Nat) (x : session)
    (h : idle_or_recording x.r) : idle_or_recording (capture_cycle env k x).r := by
  unfold capture_cycle cycle_from_SD_write at_SD_write
  apply task_steps_idle_or_recording
  have h1 : idle_or_recording
      ({ x with r := I2S_read (env.rx_buf k) (env.readsize k) x.r } : session).r := h
  have h2 := task_steps_idle_or_recording env (steps_before_SD_write env k) _ h1
  have h3 : idle_or_recording (SD_write_step k (task_steps env (steps_before_SD_write env k)
      { x with r := I2S_read (env.rx_buf k) (env.readsize k) x.r })).r :=
    SD_write_idle_or_recording _ h2
  exact task_steps_idle_or_recording env (steps_before_increment env k) _ h3

theorem capture_loop_idle_or_recording (env : session_env) (n : Nat) :
    ∀ (k : Nat) (x : session), idle_or_recording x.r →
      idle_or_recording (capture_loop env n k x).r := by
  induction n with
  | zero => intro k x h; exact h
  | succ n ih =>
    intro k x h
    exact ih (k + 1) _ (capture_cycle_idle_or_recording env k x h)

/-! ## Loader: auxiliary facts -/

theorem store_row_schedule (values : Nat → Int) (hour : Nat) (g : calendar_internal_t)
    (h d : Nat) :
    (store_row values hour g).schedule h d =
      if h = hour ∧ d < 7 then values (d + 1) else g.schedule h d := by
  have hr : List.range DAYS_IN_WEEK = [0, 1, 2, 3, 4, 5, 6] := by decide
  simp only [store_row, hr, List.foldl, store_cell]
  by_cases hh : h = hour
  · by_cases hd : d < 7
    · have e0 : (if h = hour ∧ d < 7 then values (d + 1) else g.schedule h d) = values (d + 1) :=
        if_pos ⟨hh, hd⟩
      rw [e0]
      have : d = 0 ∨ d = 1 ∨ d = 2 ∨ d = 3 ∨ d = 4 ∨ d = 5 ∨ d = 6 := by omega
      rcases this with e | e | e | e | e | e | e <;> subst e <;> simp [hh]
    · have e0 : (if h = hour ∧ d < 7 then values (d + 1) else g.schedule h d) = g.schedule h d :=
        if_neg (fun c => hd c.2)
      rw [e0]
      have h0 : d ≠ 0 := by omega
      have h1 : d ≠ 1 := by omega
      have h2 : d ≠ 2 := by omega
      have h3 : d ≠ 3 := by omega
      have h4 : d ≠ 4 := by omega
      have h5 : d ≠ 5 := by omega
      have h6 : d ≠ 6 := by omega
      simp [h0, h1, h2, h3, h4, h5, h6]
  · have e0 : (if h = hour ∧ d < 7 then values (d + 1) else g.schedule h d) = g.schedule h d :=
      if_neg (fun c => hh c.1)
    rw [e0]
    simp [hh]

theorem store_row_all_ones (values : Nat → Int) (hour : Nat) (g : calendar_internal_t) :
    (store_row values hour g).all_ones = true ↔
      (g.all_ones = true ∧ ∀ d, d < 7 → values (d + 1) = RECORD_MODE) := by
  have hr : List.range DAYS_IN_WEEK = [0, 1, 2, 3, 4, 5, 6] := by decide
  simp only [store_row, hr, List.foldl, store_cell]
  constructor
  · intro h
    split_ifs at h with h6 h5 h4 h3 h2 h1 h0
    refine ⟨h, ?_⟩
    intro d hd
    have : d = 0 ∨ d = 1 ∨ d = 2 ∨ d = 3 ∨ d = 4 ∨ d = 5 ∨ d = 6 := by omega
    rcases this with e | e | e | e | e | e | e <;> subst e <;> simp_all
  · rintro ⟨h, hv⟩
    have v0 := hv 0 (by omega)
    have v1 := hv 1 (by omega)
    have v2 := hv 2 (by omega)
    have v3 := hv 3 (by omega)
    have v4 := hv 4 (by omega)
    have v5 := hv 5 (by omega)
    have v6 := hv 6 (by omega)
    simp only [Nat.zero_add, Nat.reduceAdd] at v0 v1 v2 v3 v4 v5 v6
    simp [v0, v1, v2, v3, v4, v5, v6, h]

/-- The loader clears `all_ones` only for a cell it has stored with a value other than
`RECORD_MODE`, and the rows it has passed are not stored again. -/
theorem load_rows_all_ones (lines : List csv_line) :
    ∀ (hour : Nat) (g : calendar_internal_t), hour ≤ 24 →
      (g.all_ones = false → ∃ h d, h < hour ∧ d < 7 ∧ g.schedule h d ≠ RECORD_MODE) →
      (load_rows lines hour g).all_ones = false →
      ∃ h d, h < 24 ∧ d < 7 ∧ (load_rows lines hour g).schedule h d ≠ RECORD_MODE := by
  induction lines with
  | nil =>
    intro hour g hle hinv hfalse
    obtain ⟨h, d, hh, hd, hne⟩ := hinv hfalse
    exact ⟨h, d, by omega, hd, hne⟩
  | cons line rest ih =>
    intro hour g hle hinv
    simp only [load_rows]
    split_ifs with h1 h2
    · apply ih (hour + 1) _ (by simp only [HOURS_IN_DAY] at h1; omega)
      intro hf
      by_cases hg : g.all_ones = true
      · have hno : ¬ ∀ d, d < 7 → sscanf_values line (d + 1) = RECORD_MODE := by
          intro hall
          have := (store_row_all_ones (sscanf_values line) hour g).2 ⟨hg, hall⟩
          rw [this] at hf
          exact Bool.noConfusion hf
        push_neg at hno
        obtain ⟨d, hd, hne⟩ := hno
        refine ⟨hour, d, by omega, hd, ?_⟩
        rw [store_row_schedule, if_pos ⟨rfl, hd⟩]
        exact hne
      · obtain ⟨h, d, hh, hd, hne⟩ := hinv (by simpa using hg)
        refine ⟨h, d, by omega, hd, ?_⟩
        rw [store_row_schedule, if_neg (fun c => by omega)]
        exact hne
    · exact ih hour g hle hinv
    · intro hfalse
      obtain ⟨h, d, hh, hd, hne⟩ := hinv hfalse
      exact ⟨h, d, by omega, hd, hne⟩

/-- After the loader, a grid whose cells are all `RECORD_MODE` has `all_ones` set. -/
theorem load_calendar_all_ones (lines : List csv_line)
    (h : ∀ h2 d2, h2 < 24 → d2 < 7 → (load_calendar lines).schedule h2 d2 = RECORD_MODE) :
    (load_calendar lines).all_ones = true := by
  by_contra hne
  have hf : (load_rows lines 0 calendar_reset).all_ones = false := by simpa using hne
  obtain ⟨h2, d2, hh, hd, hcell⟩ := load_rows_all_ones lines 0 calendar_reset (by omega)
    (fun hc => by simp [calendar_reset] at hc) hf
  exact hcell (h h2 d2 hh hd)

theorem current_value_of_loaded (lines : List csv_line) (h d : Nat) (hh : h < 24) (hd : d < 7) :
    current_value_of (load_calendar lines) h d = (load_calendar lines).schedule h d := by
  simp [current_value_of, load_calendar, hh, hd]

/-- No hour among the 167 following ones differs exactly when the grid is uniform. -/
theorem not_any_iff_uniform (g : calendar_internal_t) (v : Int) (h d : Nat)
    (hh : h < 24) (hd : d < 7) (hcur : g.schedule h d = v) :
    (List.range' (d * 24 + h + 1) 167).any (fun i => decide (cell_at g i ≠ v)) = false ↔
      ∀ h2 d2, h2 < 24 → d2 < 7 → g.schedule h2 d2 = v := by
  constructor
  · intro hany h2 d2 hh2 hd2
    by_contra hne
    have := following_differs_of_cell g v h d h2 d2 hh hd hh2 hd2 hcur hne
    rw [hany] at this
    exact Bool.noConfusion this
  · intro hall
    rw [Bool.eq_false_iff]
    intro hany
    rw [List.any_eq_true] at hany
    obtain ⟨i, -, hi⟩ := hany
    have : cell_at g i = v :=
      hall (i % 24) (i / 24 % 7) (Nat.mod_lt _ (by norm_num)) (Nat.mod_lt _ (by norm_num))
    simp [this] at hi

/-! ## Drain loop: auxiliary facts -/

theorem arena_bytes : PSRAM_BUFFER_SIZE = 7680000 := by decide

theorem block_bytes : BLOCK_SD_WRITE = 3072 := by decide

/-- The size requested by an iteration of the drain loop. -/
theorem bytes_to_write_eq (pos : Nat) :
    (if PSRAM_BUFFER_SIZE - pos < BLOCK_SD_WRITE then PSRAM_BUFFER_SIZE - pos else BLOCK_SD_WRITE)
      = min 3072 (PSRAM_BUFFER_SIZE - pos) := by
  rw [arena_bytes, block_bytes]
  split <;> omega

theorem drain_iteration_sd_write_pos (fwrite_ret : Nat → Nat → Nat) (s : recorder) :
    (drain_iteration fwrite_ret s).1.sd_write_pos =
      if (drain_iteration fwrite_ret s).2 then
        s.sd_write_pos + min 3072 (PSRAM_BUFFER_SIZE - s.sd_write_pos)
      else s.sd_write_pos := by
  unfold drain_iteration
  simp only [bytes_to_write_eq]
  by_cases h : min (fwrite_ret s.sd_write_pos (min 3072 (PSRAM_BUFFER_SIZE - s.sd_write_pos)))
      (min 3072 (PSRAM_BUFFER_SIZE - s.sd_write_pos)) ≠ min 3072 (PSRAM_BUFFER_SIZE - s.sd_write_pos)
  · rw [if_pos h]
    simp
  · rw [if_neg h]
    have h2 := not_not.1 h
    simp only [if_true]
    rw [h2]

theorem drain_iteration_continue_iff (fwrite_ret : Nat → Nat → Nat) (s : recorder) :
    (drain_iteration fwrite_ret s).2 = true ↔
      min 3072 (PSRAM_BUFFER_SIZE - s.sd_write_pos) ≤
        fwrite_ret s.sd_write_pos (min 3072 (PSRAM_BUFFER_SIZE - s.sd_write_pos)) := by
  unfold drain_iteration
  simp only [bytes_to_write_eq]
  by_cases h : min (fwrite_ret s.sd_write_pos (min 3072 (PSRAM_BUFFER_SIZE - s.sd_write_pos)))
      (min 3072 (PSRAM_BUFFER_SIZE - s.sd_write_pos)) ≠ min 3072 (PSRAM_BUFFER_SIZE - s.sd_write_pos)
  · rw [if_pos h]
    simp only [Bool.false_eq_true, false_iff, not_le]
    omega
  · rw [if_neg h]
    simp only [true_iff]
    have h2 := not_not.1 h
    omega

theorem drain_iteration_psram_buffer (fwrite_ret : Nat → Nat → Nat) (s : recorder) :
    (drain_iteration fwrite_ret s).1.psram_buffer = s.psram_buffer := by
  unfold drain_iteration
  simp only
  split_ifs <;> rfl

theorem drain_iteration_card_file (fwrite_ret : Nat → Nat → Nat) (s : recorder)
    (h : (drain_iteration fwrite_ret s).2 = true) :
    (drain_iteration fwrite_ret s).1.card_file =
      s.card_file.map (fun f => f ++
        (List.range' s.sd_write_pos (min 3072 (PSRAM_BUFFER_SIZE - s.sd_write_pos))).map
          (psram_byte s.psram_buffer)) := by
  have hc := (drain_iteration_continue_iff fwrite_ret s).1 h
  unfold drain_iteration
  simp only [bytes_to_write_eq]
  have hw : min (fwrite_ret s.sd_write_pos (min 3072 (PSRAM_BUFFER_SIZE - s.sd_write_pos)))
      (min 3072 (PSRAM_BUFFER_SIZE - s.sd_write_pos)) = min 3072 (PSRAM_BUFFER_SIZE - s.sd_write_pos) :=
    Nat.min_eq_right hc
  rw [hw]
  simp

/-- The cursor bound is kept by the drain loop. -/
theorem drain_loop_sd_write_pos_le (fwrite_ret : Nat → Nat → Nat) (fuel : Nat) :
    ∀ s : recorder, s.sd_write_pos ≤ PSRAM_BUFFER_SIZE →
      (drain_loop fwrite_ret fuel s).sd_write_pos ≤ PSRAM_BUFFER_SIZE := by
  induction fuel with
  | zero => intro s h; exact h
  | succ n ih =>
    intro s h
    have hstep : (drain_iteration fwrite_ret s).1.sd_write_pos ≤ PSRAM_BUFFER_SIZE := by
      rw [drain_iteration_sd_write_pos]
      split <;> omega
    simp only [drain_loop]
    split_ifs
    · exact ih _ hstep
    · exact hstep
    · exact h

/-- Every block that the drain loop hands to `fwrite` lies inside the arena and has the
size `min(3072, PSRAM_BUFFER_SIZE - sd_write_pos)`. -/
theorem drain_writes_in_arena (fwrite_ret : Nat → Nat → Nat) (fuel : Nat) :
    ∀ (s : recorder) (w : Nat × Nat × Nat), w ∈ drain_writes fwrite_ret fuel s →
      w.1 < PSRAM_BUFFER_SIZE ∧ w.2.1 = min 3072 (PSRAM_BUFFER_SIZE - w.1) ∧
      w.1 + w.2.1 ≤ PSRAM_BUFFER_SIZE ∧ w.2.2 ≤ w.2.1 := by
  induction fuel with
  | zero => intro s w hw; simp [drain_writes] at hw
  | succ n ih =>
    intro s w hw
    simp only [drain_writes, bytes_to_write_eq] at hw
    split_ifs at hw with h1 h2
    · rcases List.mem_cons.1 hw with e | hmem
      · subst e
        exact ⟨h1, rfl, by simp only; omega, Nat.min_le_right _ _⟩
      · exact ih _ w hmem
    · rcases List.mem_cons.1 hw with e | hmem
      · subst e
        exact ⟨h1, rfl, by simp only; omega, Nat.min_le_right _ _⟩
      · simp at hmem
    · simp at hw

/-- The writes of a drain that starts on a block boundary: block after block, no write
after a short one, and a last write that is short unless the end of the arena is reached. -/
theorem drain_writes_blocks (fwrite_ret : Nat → Nat → Nat) (fuel : Nat) :
    ∀ (j : Nat) (s : recorder), s.sd_write_pos = 3072 * j → j ≤ 2500 → 2500 - j ≤ fuel →
      (drain_writes fwrite_ret fuel s).length ≤ 2500 - j ∧
      (∀ i w, (drain_writes fwrite_ret fuel s)[i]? = some w →
        w = (3072 * (j + i), 3072, min (fwrite_ret (3072 * (j + i)) 3072) 3072)) ∧
      (∀ i, i + 1 < (drain_writes fwrite_ret fuel s).length →
        3072 ≤ fwrite_ret (3072 * (j + i)) 3072) ∧
      ((drain_writes fwrite_ret fuel s).length < 2500 - j →
        ∃ i, i + 1 = (drain_writes fwrite_ret fuel s).length ∧
          fwrite_ret (3072 * (j + i)) 3072 < 3072) := by
  induction fuel with
  | zero =>
    intro j s hpos hj hfuel
    simp only [drain_writes, List.length_nil]
    refine ⟨by omega, ?_, ?_, ?_⟩
    · intro i w hw
      simp at hw
    · intro i hi
      omega
    · intro h
      omega
  | succ n ih =>
    intro j s hpos hj hfuel
    by_cases hend : j = 2500
    · have hno : ¬ s.sd_write_pos < PSRAM_BUFFER_SIZE := by rw [arena_bytes]; omega
      simp only [drain_writes, if_neg hno, List.length_nil]
      refine ⟨by omega, ?_, ?_, ?_⟩
      · intro i w hw
        simp at hw
      · intro i hi
        omega
      · intro h
        omega
    · have hlt : s.sd_write_pos < PSRAM_BUFFER_SIZE := by rw [arena_bytes]; omega
      have hb : min 3072 (PSRAM_BUFFER_SIZE - s.sd_write_pos) = 3072 := by
        rw [arena_bytes]; omega
      have hcont := drain_iteration_continue_iff fwrite_ret s
      rw [hb, hpos] at hcont
      have hhead : drain_writes fwrite_ret (n + 1) s =
          (3072 * j, 3072, min (fwrite_ret (3072 * j) 3072) 3072) ::
            (if (drain_iteration fwrite_ret s).2 then
              drain_writes fwrite_ret n (drain_iteration fwrite_ret s).1 else []) := by
        have hlt2 : 3072 * j < PSRAM_BUFFER_SIZE := hpos ▸ hlt
        have hb2 : min 3072 (PSRAM_BUFFER_SIZE - 3072 * j) = 3072 := hpos ▸ hb
        simp only [drain_writes, bytes_to_write_eq, hpos, if_pos hlt2, hb2]
      rw [hhead]
      by_cases hc : (drain_iteration fwrite_ret s).2 = true
      · have hfr := hcont.1 hc
        have hnext : (drain_iteration fwrite_ret s).1.sd_write_pos = 3072 * (j + 1) := by
          rw [drain_iteration_sd_write_pos, if_pos hc, hb, hpos]
          ring
        obtain ⟨h1, h2, h3, h4⟩ := ih (j + 1) _ hnext (by omega) (by omega)
        rw [if_pos hc]
        simp only [List.length_cons]
        refine ⟨by omega, ?_, ?_, ?_⟩
        · intro i w hw
          cases i with
          | zero =>
            simp only [List.getElem?_cons_zero, Option.some.injEq] at hw
            rw [← hw]
            rfl
          | succ i =>
            simp only [List.getElem?_cons_succ] at hw
            rw [h2 i w hw, show j + 1 + i = j + (i + 1) by omega]
        · intro i hi
          cases i with
          | zero => simpa using hfr
          | succ i =>
            have := h3 i (by omega)
            rwa [show j + 1 + i = j + (i + 1) by omega] at this
        · intro hshort
          obtain ⟨i, hi1, hi2⟩ := h4 (by omega)
          exact ⟨i + 1, by omega, by rwa [show j + 1 + i = j + (i + 1) by omega] at hi2⟩
      · have hfr : fwrite_ret (3072 * j) 3072 < 3072 := by
          by_contra hge
          exact hc (hcont.2 (by omega))
        rw [if_neg hc]
        simp only [List.length_cons, List.length_nil]
        refine ⟨by omega, ?_, ?_, ?_⟩
        · intro i w hw
          cases i with
          | zero =>
            simp only [List.getElem?_cons_zero, Option.some.injEq] at hw
            rw [← hw]
            rfl
          | succ i => simp at hw
        · intro i hi
          omega
        · intro _
          exact ⟨0, rfl, by simpa using hfr⟩

/-- When no write is short, a drain that starts on a block boundary issues all the
remaining blocks and appends the rest of the arena to the file. -/
theorem drain_loop_complete (fwrite_ret : Nat → Nat → Nat) (fuel : Nat) :
    ∀ (j : Nat) (s : recorder), s.sd_write_pos = 3072 * j → j ≤ 2500 → 2500 - j ≤ fuel →
      (∀ i, j ≤ i → i < 2500 → 3072 ≤ fwrite_ret (3072 * i) 3072) →
      (drain_writes fwrite_ret fuel s).length = 2500 - j ∧
      (drain_loop fwrite_ret fuel s).sd_write_pos = PSRAM_BUFFER_SIZE ∧
      (drain_loop fwrite_ret fuel s).card_file =
        s.card_file.map (fun f => f ++
          (List.range' (3072 * j) (3072 * (2500 - j))).map (psram_byte s.psram_buffer)) := by
  induction fuel with
  | zero =>
    intro j s hpos hj hfuel _
    have hj2 : j = 2500 := by omega
    subst hj2
    have e1 : drain_writes fwrite_ret 0 s = [] := rfl
    have e2 : drain_loop fwrite_ret 0 s = s := rfl
    rw [e1, e2]
    refine ⟨rfl, by rw [hpos, arena_bytes], ?_⟩
    cases s.card_file <;> simp
  | succ n ih =>
    intro j s hpos hj hfuel hall
    by_cases hend : j = 2500
    · subst hend
      have hno : ¬ s.sd_write_pos < PSRAM_BUFFER_SIZE := by rw [arena_bytes]; omega
      have e1 : drain_writes fwrite_ret (n + 1) s = [] := by simp only [drain_writes, if_neg hno]
      have e2 : drain_loop fwrite_ret (n + 1) s = s := by simp only [drain_loop, if_neg hno]
      rw [e1, e2]
      refine ⟨rfl, by rw [hpos, arena_bytes], ?_⟩
      cases s.card_file <;> simp
    · have hlt : s.sd_write_pos < PSRAM_BUFFER_SIZE := by rw [arena_bytes]; omega
      have hb : min 3072 (PSRAM_BUFFER_SIZE - s.sd_write_pos) = 3072 := by
        rw [arena_bytes]; omega
      have hcont := drain_iteration_continue_iff fwrite_ret s
      rw [hb, hpos] at hcont
      have hc : (drain_iteration fwrite_ret s).2 = true := hcont.2 (hall j (le_refl j) (by omega))
      have hnext : (drain_iteration fwrite_ret s).1.sd_write_pos = 3072 * (j + 1) := by
        rw [drain_iteration_sd_write_pos, if_pos hc, hb, hpos]
        ring
      obtain ⟨h1, h2, h3⟩ := ih (j + 1) _ hnext (by omega) (by omega)
        (fun i hi1 hi2 => hall i (by omega) hi2)
      have hcard := drain_iteration_card_file fwrite_ret s hc
      rw [hb, hpos] at hcard
      simp only [drain_writes, drain_loop, if_pos hlt, hc, if_true, List.length_cons]
      refine ⟨by omega, h2, ?_⟩
      rw [h3, hcard, drain_iteration_psram_buffer, Option.map_map]
      congr 1
      funext f
      simp only [Function.comp_apply, List.append_assoc, ← List.map_append]
      congr 2
      have e := List.range'_append_1 (3072 * j) 3072 (3072 * (2500 - (j + 1)))
      rw [show 3072 * (j + 1) = 3072 * j + 3072 by ring, e]
      congr 1
      omega

/-- From a block boundary the drain loop needs no more iterations than there are blocks
left: more fuel changes nothing. -/
theorem drain_loop_fuel (fwrite_ret : Nat → Nat → Nat) (fuel : Nat) :
    ∀ (j : Nat) (s : recorder), s.sd_write_pos = 3072 * j → j ≤ 2500 → 2500 - j ≤ fuel →
      drain_loop fwrite_ret fuel s = drain_loop fwrite_ret (2500 - j) s ∧
      drain_writes fwrite_ret fuel s = drain_writes fwrite_ret (2500 - j) s := by
  induction fuel with
  | zero =>
    intro j s hpos hj hfuel
    have e : 2500 - j = 0 := by omega
    rw [e]
    exact ⟨rfl, rfl⟩
  | succ n ih =>
    intro j s hpos hj hfuel
    by_cases hend : j = 2500
    · subst hend
      have hno : ¬ s.sd_write_pos < PSRAM_BUFFER_SIZE := by rw [arena_bytes]; omega
      have e1 : drain_writes fwrite_ret (n + 1) s = [] := by simp only [drain_writes, if_neg hno]
      have e2 : drain_loop fwrite_ret (n + 1) s = s := by simp only [drain_loop, if_neg hno]
      rw [e1, e2]
      exact ⟨rfl, rfl⟩
    · have hlt : s.sd_write_pos < PSRAM_BUFFER_SIZE := by rw [arena_bytes]; omega
      have hb : min 3072 (PSRAM_BUFFER_SIZE - s.sd_write_pos) = 3072 := by
        rw [arena_bytes]; omega
      have e : 2500 - j = (2500 - (j + 1)) + 1 := by omega
      rw [e]
      simp only [drain_loop, drain_writes, if_pos hlt]
      by_cases hc : (drain_iteration fwrite_ret s).2 = true
      · have hnext : (drain_iteration fwrite_ret s).1.sd_write_pos = 3072 * (j + 1) := by
          rw [drain_iteration_sd_write_pos, if_pos hc, hb, hpos]
          ring
        obtain ⟨h1, h2⟩ := ih (j + 1) _ hnext (by omega) (by omega)
        simp only [hc, if_true]
        rw [h1, h2]
        exact ⟨rfl, rfl⟩
      · simp only [hc]
        exact ⟨rfl, rfl⟩

/-- The indices used by the loop of `I2S_read`, entered with the cursor inside the arena,
are inside the arena and inside the part of `rx_buf` that was read. -/
theorem I2S_read_accesses_in_bounds (readsize fuel : Nat) :
    ∀ (i pos : Nat), pos < 3840000 →
      ∀ a, a ∈ I2S_read_accesses readsize fuel i pos → a.1 < 3840000 ∧ a.2 < readsize / 2 := by
  induction fuel with
  | zero => intro i pos _ a ha; simp [I2S_read_accesses] at ha
  | succ n ih =>
    intro i pos hpos a ha
    simp only [I2S_read_accesses] at ha
    split_ifs at ha with h1 h2
    · rcases List.mem_cons.1 ha with e | hmem
      · subst e
        exact ⟨hpos, h1⟩
      · exact ih (i + 2) 0 (by norm_num) a hmem
    · rcases List.mem_cons.1 ha with e | hmem
      · subst e
        exact ⟨hpos, h1⟩
      · rw [arena_words] at h2
        exact ih (i + 2) (pos + 1) (by omega) a hmem
    · simp at ha

/-! ## Capture loop with full reads: cursor and cycle counter -/

theorem drain_iteration_cycle_count (fwrite_ret : Nat → Nat → Nat) (s : recorder) :
    (drain_iteration fwrite_ret s).1.cycle_count = s.cycle_count := by
  unfold drain_iteration
  simp only
  split_ifs <;> rfl

theorem SD_write_cycle_count (s : recorder) : (SD_write s).1.cycle_count = s.cycle_count := by
  unfold SD_write
  split
  · split <;> rfl
  · rfl
  · rfl

theorem task_steps_nil (env : session_env) (n : Nat) :
    ∀ x : session, x.tasks = [] → task_steps env n x = x := by
  induction n with
  | zero => intro x _; rfl
  | succ n ih =>
    intro x h
    have e : task_step env x = x := by
      unfold task_step
      rw [h]
    simp only [task_steps]
    rw [e]
    exact ih x h

/-- While the arena fills with no task pending, a capture cycle with a full read, entered
with `cycle_count` below 990, creates no task and moves `cycle_count` and the cursor on
by one read. -/
theorem capture_cycle_idle_fill (env : session_env) (hfull : ∀ k, env.readsize k = 15360)
    (k c w : Nat) (x : session) (hc9 : c < 990) (hw : w < 999) (h : idle_fill c w x) :
    idle_fill (c + 1) (w + 1) (capture_cycle env k x) := by
  obtain ⟨ht, hs, hc, hp⟩ := h
  have hal : x.r.i2s_write_pos % 3840 = 0 ∧ x.r.i2s_write_pos < 3840000 := by
    rw [hp]
    omega
  rw [capture_cycle_eq_full env k x hfull hal]
  have ht2 : ({ x with r := I2S_read_full (env.rx_buf k) x.r } : session).tasks = [] := ht
  have hno : SD_write (I2S_read_full (env.rx_buf k) x.r) =
      (I2S_read_full (env.rx_buf k) x.r, none) := by
    have e1 : (I2S_read_full (env.rx_buf k) x.r).current_state = RECORDER_STATE_IDLE := hs
    have e2 : (I2S_read_full (env.rx_buf k) x.r).cycle_count = c := hc
    have hk2 : ¬ c = MAX_CICLE_COUNT - 10 := by
      show ¬ c = 1000 - 10
      omega
    unfold SD_write
    rw [e1]
    simp only [e2]
    rw [if_neg hk2]
  have hstep : SD_write_step k { x with r := I2S_read_full (env.rx_buf k) x.r } =
      { x with r := I2S_read_full (env.rx_buf k) x.r } := by
    unfold SD_write_step
    simp only [hno, ht]
    rfl
  have ht3 : (increment_cycle_count
      { x with r := I2S_read_full (env.rx_buf k) x.r }).tasks = [] := ht
  unfold capture_cycle_full at_SD_write_full cycle_from_SD_write
  rw [task_steps_nil env _ _ ht2, hstep, task_steps_nil env _ _ ht2,
    task_steps_nil env _ _ ht3]
  refine ⟨ht, hs, ?_, ?_⟩
  · show (x.r.cycle_count + 1) % 2 ^ 32 = c + 1
    rw [hc]
    exact Nat.mod_eq_of_lt (by
      have : (990 : Nat) < 2 ^ 32 := by norm_num
      omega)
  · show (x.r.i2s_write_pos + 3840) % 3840000 = 3840 * (w + 1)
    rw [hp]
    omega

theorem capture_loop_idle_fill (env : session_env) (hfull : ∀ k, env.readsize k = 15360)
    (n : Nat) : ∀ (k c w : Nat) (x : session), c + n ≤ 990 → w + n ≤ 999 → idle_fill c w x →
      idle_fill (c + n) (w + n) (capture_loop env n k x) := by
  induction n with
  | zero => intro k c w x _ _ h; exact h
  | succ n ih =>
    intro k c w x hc hw h
    have := ih (k + 1) (c + 1) (w + 1) _ (by omega) (by omega)
      (capture_cycle_idle_fill env hfull k c w x (by omega) (by omega) h)
    rw [show c + (n + 1) = c + 1 + n by omega, show w + (n + 1) = w + 1 + n by omega]
    exact this

theorem capture_loop_first_fill (env : session_env) (hfull : ∀ k, env.readsize k = 15360)
    (n : Nat) (x : session) (hn : n ≤ 990) (h : first_fill 0 x) :
    first_fill n (capture_loop env n 0 x) := by
  have := capture_loop_idle_fill env hfull n 0 0 0 x (by omega) (by omega) h
  rw [Nat.zero_add] at this
  exact this

theorem session_start_first_fill (env : session_env) (s : recorder) :
    first_fill 0 (session_start env s) :=
  ⟨rfl, rfl, rfl, rfl⟩

theorem capture_loop_add (env : session_env) (m : Nat) :
    ∀ (n k : Nat) (x : session),
      capture_loop env (m + n) k x = capture_loop env n (k + m) (capture_loop env m k x) := by
  induction m with
  | zero => intro n k x; simp [capture_loop]
  | succ m ih =>
    intro n k x
    rw [show m + 1 + n = (m + n) + 1 by omega]
    simp only [capture_loop]
    rw [ih n (k + 1) _, show k + 1 + m = k + (m + 1) by omega]

/-- The session at the call of `SD_write()` when no task is pending. -/
theorem at_SD_write_of_no_task (env : session_env) (k : Nat) (x : session) (h : x.tasks = []) :
    at_SD_write env k x = { x with r := I2S_read (env.rx_buf k) (env.readsize k) x.r } := by
  unfold at_SD_write
  exact task_steps_nil env _ _ h

theorem drain_loop_current_state (fwrite_ret : Nat → Nat → Nat) (fuel : Nat) :
    ∀ s : recorder, (drain_loop fwrite_ret fuel s).current_state = s.current_state := by
  induction fuel with
  | zero => intro s; rfl
  | succ n ih =>
    intro s
    simp only [drain_loop]
    split_ifs
    · rw [ih, drain_iteration_current_state]
    · rw [drain_iteration_current_state]
    · rfl

/-- The session result when the capture loop does not end in state Recording. -/
theorem audio_recorder_start_finalizes (env : session_env) (minutes : Nat) (s : recorder)
    (hmin : minutes ≠ 0) (hok : env.create_ok = true)
    (hst : (capture_loop env env.cycles 0 (session_start env s)).r.current_state ≠
      RECORDER_STATE_RECORDING) :
    (audio_recorder_start env true minutes s).2.r.card_file =
      (update_wav_header
        (capture_loop env env.cycles 0 (session_start env s)).r.card_file).2 := by
  unfold audio_recorder_start
  have h1 : (!true || decide (minutes = 0)) = false := by simp [hmin]
  have h2 : (!(create_wav_header env.create_ok s.card_file).1) = false := by
    simp [create_wav_header, hok]
  simp only [h1, h2, Bool.false_eq_true, if_false]
  rw [if_neg (fun c => hst c.2)]

/-- The session result when the capture loop ends in state Recording with a cursor that is
not 0: the file is what the synchronous drain leaves, `update_wav_header` is not applied. -/
theorem audio_recorder_start_final_drain (env : session_env) (minutes : Nat) (s : recorder)
    (hmin : minutes ≠ 0) (hok : env.create_ok = true)
    (hpos : 0 < (capture_loop env env.cycles 0 (session_start env s)).r.i2s_write_pos)
    (hst : (capture_loop env env.cycles 0 (session_start env s)).r.current_state =
      RECORDER_STATE_RECORDING) :
    (audio_recorder_start env true minutes s).2.r.card_file =
      (drain_loop (env.fwrite_ret (capture_loop env env.cycles 0 (session_start env s)).drains)
        PSRAM_BUFFER_SIZE (capture_loop env env.cycles 0 (session_start env s)).r).card_file := by
  unfold audio_recorder_start
  have h1 : (!true || decide (minutes = 0)) = false := by simp [hmin]
  have h2 : (!(create_wav_header env.create_ok s.card_file).1) = false := by
    simp [create_wav_header, hok]
  simp only [h1, h2, Bool.false_eq_true, if_false]
  rw [if_pos ⟨hpos, hst⟩]
  rfl

theorem read_le32_append_left (f g : List Nat) (off : Nat) (h : off + 4 ≤ f.length) :
    read_le32 (f ++ g) off = read_le32 f off := by
  unfold read_le32
  simp only [List.getD_eq_getElem?_getD]
  rw [List.getElem?_append_left (by omega), List.getElem?_append_left (by omega),
    List.getElem?_append_left (by omega), List.getElem?_append_left (by omega)]

theorem SD_write_request_iff (r : recorder) :
    (SD_write r).2 = some sd_task.sd_init_task ↔
      (r.current_state = RECORDER_STATE_IDLE ∧ r.cycle_count = 990) := by
  unfold SD_write
  split
  · rename_i h
    split
    · rename_i hc
      simp only [true_iff]
      exact ⟨h, hc⟩
    · rename_i hc
      constructor
      · intro c
        exact Option.noConfusion c
      · intro c
        exact absurd c.2 hc
  · rename_i h
    simp [h]
  · rename_i h1 h2
    constructor
    · intro c
      exact Option.noConfusion c
    · intro c
      exact absurd c.1 h1

/-- The only failures that `audio_recorder_start` reports: it returns false exactly when
`filename` is `NULL`, `minutes` is 0 or the header cannot be created; and when the header
was created and the capture loop does not end in state Recording it returns true. -/
theorem audio_recorder_start_false_iff (env : session_env) (filename_ok : Bool)
    (minutes : Nat) (s : recorder) :
    ((audio_recorder_start env filename_ok minutes s).1 = some false ↔
      (filename_ok = false ∨ minutes = 0 ∨ env.create_ok = false)) ∧
    (filename_ok = true → minutes ≠ 0 → env.create_ok = true →
      (capture_loop env env.cycles 0 (session_start env s)).r.current_state ≠
        RECORDER_STATE_RECORDING →
      (audio_recorder_start env filename_ok minutes s).1 = some true) := by
  constructor
  · by_cases h : filename_ok = true ∧ minutes ≠ 0 ∧ env.create_ok = true
    · obtain ⟨h1, h2, h3⟩ := h
      subst h1
      rw [audio_recorder_start_result env minutes s h2 h3]
      constructor
      · intro h
        split at h <;> simp at h
      · rintro (h | h | h)
        · simp at h
        · exact absurd h h2
        · rw [h3] at h
          simp at h
    · have hret : (audio_recorder_start env filename_ok minutes s).1 = some false := by
        unfold audio_recorder_start
        by_cases h1 : (!filename_ok || decide (minutes = 0)) = true
        · rw [if_pos h1]
        · rw [if_neg h1]
          have h2 : (!(create_wav_header env.create_ok s.card_file).1) = true := by
            have hc : env.create_ok = false := by
              by_contra hc
              apply h
              simp only [Bool.or_eq_true, Bool.not_eq_true', decide_eq_true_eq, not_or] at h1
              exact ⟨by simpa using h1.1, h1.2, by simpa using hc⟩
            simp [create_wav_header, hc]
          rw [if_pos h2]
      rw [hret]
      simp only [true_iff]
      by_contra hn
      apply h
      simp only [not_or] at hn
      exact ⟨by simpa using hn.1, hn.2.1, by simpa using hn.2.2⟩
  · intro h1 h2 h3 hst
    subst h1
    rw [audio_recorder_start_result env minutes s h2 h3, if_neg (fun h => hst h.2)]

/-! ## The reset of the drain landing in the middle of a capture cycle -/

/-- From a session that fills the arena with no task pending, `cycle_count` being `c` and
the cursor `w` reads into the arena, the request for the medium is made `990 - c` capture
cycles later, with `1000 - (w + (990 - c))` capture cycles remaining before the cursor
wraps. -/
theorem request_after_idle_fill (env : session_env) (hfull : ∀ k, env.readsize k = 15360)
    (m n c w t : Nat) (x : session) (h : idle_fill c w (capture_loop env m 0 x))
    (hc : c + n = 990) (hw : w + n ≤ 999) (ht : t = m + n) :
    cycles_until_wrap (capture_loop env t 0 x).r.i2s_write_pos = 1000 - (w + n) ∧
    (SD_write (at_SD_write env t (capture_loop env t 0 x)).r).2 = some sd_task.sd_init_task := by
  subst ht
  have hfill := capture_loop_idle_fill env hfull n (0 + m) c w _ (by omega) hw h
  rw [← capture_loop_add env m n 0 x, hc] at hfill
  obtain ⟨ht, hs, hcc, hp⟩ := hfill
  constructor
  · unfold cycles_until_wrap
    rw [hp, arena_words]
    omega
  · rw [at_SD_write_of_no_task env _ _ ht, SD_write_request_iff]
    exact ⟨hs, hcc⟩

/-- When the epilogue of `sd_write_task` runs between `SD_write()` and `cycle_count++`
(here in capture cycle 991), the capture cursor restarts at 0 while `cycle_count`
restarts at 1: from then on the two are one read apart, and the next request, made when
`cycle_count` is 990 (capture cycle 1981), comes with 11 capture cycles remaining before
the cursor wraps. -/
theorem SD_write_request_with_eleven_remaining :
    idle_fill 1 0 (capture_loop env_reset_mid_cycle 992 0
      (session_start env_reset_mid_cycle recorder_boot)) ∧
    cycles_until_wrap (capture_loop env_reset_mid_cycle 1981 0
      (session_start env_reset_mid_cycle recorder_boot)).r.i2s_write_pos = 11 ∧
    (SD_write (at_SD_write env_reset_mid_cycle 1981 (capture_loop env_reset_mid_cycle 1981 0
      (session_start env_reset_mid_cycle recorder_boot))).r).2 =
        some sd_task.sd_init_task := by
  have hstart : (session_start env_reset_mid_cycle recorder_boot).r.i2s_write_pos % 3840 = 0 ∧
      (session_start env_reset_mid_cycle recorder_boot).r.i2s_write_pos < 3840000 := by
    constructor <;> decide
  have h992 : idle_fill 1 0 (capture_loop env_reset_mid_cycle 992 0
      (session_start env_reset_mid_cycle recorder_boot)) := by
    unfold idle_fill
    rw [capture_loop_eq_full env_reset_mid_cycle (fun _ => rfl) 992 0 _ hstart]
    decide!
  exact ⟨h992, request_after_idle_fill env_reset_mid_cycle (fun _ => rfl) 992 989 1 0 1981 _
    h992 (by norm_num) (by norm_num) (by norm_num)⟩

/-! ## Claims about the schedule engine -/

/-- C1 (as amended): for a loaded table and a valid clock reading `(d, h, m)` with
`mode = table[h][d]` and `r = get_next_change_time(h, d, mode)`: if some cell of the
grid differs from `mode`, then `r ≥ 1` and the mode observed `r` minutes later on the
weekly clock differs from `mode`; if every cell equals `mode`, then `r` is `0` when
`mode` is Record and `all_ones` is set, and the 60-minute fallback otherwise. -/
theorem C1_step_changes_mode (g : calendar_internal_t) (m h d : Nat)
    (hh : h < 24) (hd : d < 7) (hm : m < 60) (hex : g.file_exists = true) :
    ((∃ h2 d2, h2 < 24 ∧ d2 < 7 ∧ g.schedule h2 d2 ≠ g.schedule h d) →
      1 ≤ get_next_change_time g m h d (g.schedule h d) ∧
      observed_mode g (minute_of_week d h m + get_next_change_time g m h d (g.schedule h d))
        ≠ g.schedule h d) ∧
    ((∀ h2 d2, h2 < 24 → d2 < 7 → g.schedule h2 d2 = g.schedule h d) →
      get_next_change_time g m h d (g.schedule h d) =
        if g.schedule h d = RECORD_MODE ∧ g.all_ones = true then 0 else 60) := by
  rw [get_next_change_time_reference g m h d _ hh hd hm]
  have hc : ¬ (g.file_exists = false ∨ g.schedule h d ≠ g.schedule h d) := by simp [hex]
  constructor
  · rintro ⟨h2, d2, hh2, hd2, hne⟩
    have ha := following_differs_of_cell g (g.schedule h d) h d h2 d2 hh hd hh2 hd2 rfl hne
    obtain ⟨hk, hcell, -⟩ := unchanged_run_spec g (g.schedule h d) (d * 24 + h + 1) ha
    unfold minutesUntilNextChange
    rw [if_neg hc, if_pos ha]
    generalize ((List.range' (d * 24 + h + 1) 167).takeWhile
      (fun i => decide (cell_at g i = g.schedule h d))).length = k at hk hcell ⊢
    refine ⟨by omega, ?_⟩
    unfold observed_mode minute_of_week
    have e1 : ((d * 24 + h) * 60 + m + (60 - m + 60 * k)) / 60 % 24 = (d * 24 + h + 1 + k) % 24 := by
      omega
    have e2 : ((d * 24 + h) * 60 + m + (60 - m + 60 * k)) / 1440 % 7
        = (d * 24 + h + 1 + k) / 24 % 7 := by omega
    rw [e1, e2]
    exact hcell
  · intro hall
    have ha : ¬ (List.range' (d * 24 + h + 1) 167).any
        (fun i => decide (cell_at g i ≠ g.schedule h d)) = true := by
      rw [List.any_eq_true]
      rintro ⟨i, -, hi⟩
      have : cell_at g i = g.schedule h d :=
        hall (i % 24) (i / 24 % 7) (Nat.mod_lt _ (by norm_num)) (Nat.mod_lt _ (by norm_num))
      simp [this] at hi
    unfold minutesUntilNextChange
    rw [if_neg hc, if_neg ha]

/-- Witness for C1: Sunday 00:00 on a table that records only on Sunday from 05:00 to
06:00; the change is 300 minutes away and the mode observed then is Record. -/
theorem C1_step_changes_mode_witness :
    (1 ≤ get_next_change_time sunday_five_calendar 0 0 0 (sunday_five_calendar.schedule 0 0) ∧
      observed_mode sunday_five_calendar (minute_of_week 0 0 0 +
        get_next_change_time sunday_five_calendar 0 0 0 (sunday_five_calendar.schedule 0 0))
        ≠ sunday_five_calendar.schedule 0 0) ∧
    get_next_change_time sunday_five_calendar 0 0 0 (sunday_five_calendar.schedule 0 0) = 300 :=
  ⟨(C1_step_changes_mode sunday_five_calendar 0 0 0 (by decide) (by decide) (by decide) rfl).1
      ⟨5, 0, by decide, by decide, by decide⟩, by decide⟩

set_option maxRecDepth 100000 in
/-- C1 (counterexample): on the default calendar (every cell 0, so `all_ones` is false and
the mode is not Record) at Sunday 00:00 the lookahead is the 60-minute fallback, and
60 minutes later the observed mode is still the same. -/
theorem C1_counterexample :
    (load_calendar default_calendar_lines).file_exists = true ∧
    ¬ ((load_calendar default_calendar_lines).all_ones = true ∧
        (load_calendar default_calendar_lines).schedule 0 0 = RECORD_MODE) ∧
    get_next_change_time (load_calendar default_calendar_lines) 0 0 0
      ((load_calendar default_calendar_lines).schedule 0 0) = 60 ∧
    observed_mode (load_calendar default_calendar_lines) (minute_of_week 0 0 0 + 60) =
      (load_calendar default_calendar_lines).schedule 0 0 := by
  decide

/-- C2: for every table state, valid clock reading and `current_value`,
`get_next_change_time` returns at most `168 * 60 = 10080` minutes (and, being
unsigned, at least 0). -/
theorem C2_next_change_bounded (g : calendar_internal_t) (m h d : Nat) (v : Int)
    (hh : h < 24) (hd : d < 7) (hm : m < 60) :
    0 ≤ get_next_change_time g m h d v ∧ get_next_change_time g m h d v ≤ 168 * 60 := by
  refine ⟨Nat.zero_le _, ?_⟩
  rw [get_next_change_time_reference g m h d v hh hd hm]
  unfold minutesUntilNextChange
  have hk := takeWhile_range_length_le (fun i => decide (cell_at g i = v)) (d * 24 + h + 1) 167
  split
  · omega
  · split
    · omega
    · split <;> omega

/-- Witness for C2: the default calendar at Sunday 00:00. -/
theorem C2_next_change_bounded_witness :
    0 ≤ get_next_change_time (uniform_calendar 0 false) 0 0 0 0 ∧
    get_next_change_time (uniform_calendar 0 false) 0 0 0 0 ≤ 168 * 60 :=
  C2_next_change_bounded (uniform_calendar 0 false) 0 0 0 0 (by decide) (by decide) (by decide)

/-- C7: on every table and valid clock reading, `get_next_change_time` equals the
reference lookahead `minutesUntilNextChange`; and when the table exists, the current
cell holds `v` and one of the 167 following hours differs from `v`, the result is
`(60 - m) + 60 * k` with `k` the length of the run of unchanged hours, which is at
least 1 (never the immediate value 0). -/
theorem C7_next_change_is_reference (g : calendar_internal_t) (m h d : Nat) (v : Int)
    (hh : h < 24) (hd : d < 7) (hm : m < 60) :
    get_next_change_time g m h d v = minutesUntilNextChange g m h d v ∧
    (g.file_exists = true → g.schedule h d = v →
      (List.range' (d * 24 + h + 1) 167).any (fun i => decide (cell_at g i ≠ v)) = true →
      get_next_change_time g m h d v = (60 - m) + 60 * ((List.range' (d * 24 + h + 1) 167).takeWhile
        (fun i => decide (cell_at g i = v))).length ∧
      1 ≤ get_next_change_time g m h d v) := by
  refine ⟨get_next_change_time_reference g m h d v hh hd hm, ?_⟩
  intro hex hcur ha
  rw [get_next_change_time_reference g m h d v hh hd hm]
  unfold minutesUntilNextChange
  rw [if_neg (by simp [hex, hcur]), if_pos ha]
  exact ⟨rfl, by omega⟩

/-- Witness for C7: Sunday 00:10 on a table that records only on Sunday from 05:00 to
06:00; four unchanged hours follow, so the result is `50 + 60 * 4 = 290`. -/
theorem C7_next_change_is_reference_witness :
    (get_next_change_time sunday_five_calendar 10 0 0 0 = (60 - 10) + 60 *
        ((List.range' (0 * 24 + 0 + 1) 167).takeWhile
          (fun i => decide (cell_at sunday_five_calendar i = 0))).length ∧
      1 ≤ get_next_change_time sunday_five_calendar 10 0 0 0) ∧
    get_next_change_time sunday_five_calendar 10 0 0 0 = 290 :=
  ⟨(C7_next_change_is_reference sunday_five_calendar 10 0 0 0 (by decide) (by decide)
      (by decide)).2 rfl (by decide) (by decide), by decide⟩

/-- C6 (failing input): for a calendar file that holds only the header line, and for one
that holds the rows of hours 0..22 with every mode 1 but no row for hour 23, the loader
leaves `all_ones` true although a cell of the loaded grid is 0, not `RECORD_MODE`. -/
theorem C6_all_ones_without_all_record :
    (load_calendar []).all_ones = true ∧ (load_calendar []).schedule 0 0 ≠ RECORD_MODE ∧
    (load_calendar ((List.range 23).map (fun hour => (hour : Int) :: List.replicate 7 1))).all_ones
      = true ∧
    (load_calendar ((List.range 23).map (fun hour => (hour : Int) :: List.replicate 7 1))).schedule
      23 0 ≠ RECORD_MODE := by
  decide

/-! ## Claims about the container writer -/

/-- C3: a file made of the header written by `create_wav_header` followed by `N` payload
bytes (total size below `2 ^ 31`, so that it fits the 32-bit `long`) is accepted by
`update_wav_header`, which leaves the little-endian value `N` at byte offset 40 and
`N + 36` at byte offset 4, keeps the length and changes no other byte. -/
theorem C3_header_round_trip (payload : List Nat) (old : Option (List Nat))
    (hN : 44 + payload.length < 2 ^ 31) :
    create_wav_header true old = (true, some wav_header) ∧
    (update_wav_header (some (wav_header ++ payload))).1 = true ∧
    ∃ f, (update_wav_header (some (wav_header ++ payload))).2 = some f ∧
      f.length = 44 + payload.length ∧
      read_le32 f 40 = payload.length ∧
      read_le32 f 4 = payload.length + 36 ∧
      ∀ i, ¬ (4 ≤ i ∧ i < 8) → ¬ (40 ≤ i ∧ i < 44) → f[i]? = (wav_header ++ payload)[i]? := by
  have hlen : (wav_header ++ payload).length = 44 + payload.length := by
    rw [List.length_append, wav_header_length]
  have h44 : 44 ≤ (wav_header ++ payload).length := by omega
  have hfit : (wav_header ++ payload).length < 2 ^ 31 := by rw [hlen]; exact hN
  have hup := update_wav_header_fits (wav_header ++ payload) h44 hfit
  have e8 : (wav_header ++ payload).length - 8 = payload.length + 36 := by omega
  have e44 : (wav_header ++ payload).length - 44 = payload.length := by omega
  rw [e8, e44] at hup
  have h32 : (2 : Nat) ^ 32 = 2 * 2 ^ 31 := by norm_num
  refine ⟨rfl, by rw [hup], ?_⟩
  refine ⟨pwrite (pwrite (wav_header ++ payload) 4 (le32 (payload.length + 36))) 40
    (le32 payload.length), by rw [hup], ?_, ?_, ?_, ?_⟩
  · rw [patched_length _ _ _ h44, hlen]
  · exact (patched_fields _ _ _ h44 (by omega) (by omega)).2
  · exact (patched_fields _ _ _ h44 (by omega) (by omega)).1
  · intro i h4 h40
    exact patched_other _ _ _ h44 i h4 h40

/-- Witness for C3: the empty payload, `N = 0`, gives the fields 0 and 36. -/
theorem C3_header_round_trip_witness :
    create_wav_header true none = (true, some wav_header) ∧
    (update_wav_header (some (wav_header ++ []))).1 = true ∧
    ∃ f, (update_wav_header (some (wav_header ++ []))).2 = some f ∧
      f.length = 44 + ([] : List Nat).length ∧
      read_le32 f 40 = ([] : List Nat).length ∧
      read_le32 f 4 = ([] : List Nat).length + 36 ∧
      ∀ i, ¬ (4 ≤ i ∧ i < 8) → ¬ (40 ≤ i ∧ i < 44) → f[i]? = (wav_header ++ [])[i]? :=
  C3_header_round_trip [] none (by decide)

/-- C4 (failing input): the container after 280 drains of the arena, a header followed by
`280 * 7,680,000` payload bytes. It can be opened and holds the header, but its size,
2,150,400,044, does not fit the 32-bit `long` of `ftell`: `update_wav_header` returns
false and leaves the file as it was, with the data size field still 0. -/
theorem C4_finalize_refuses_large_file :
    44 ≤ (wav_header ++ List.replicate (280 * PSRAM_BUFFER_SIZE) 0).length ∧
    (update_wav_header (some (wav_header ++ List.replicate (280 * PSRAM_BUFFER_SIZE) 0))).1
      = false ∧
    (update_wav_header (some (wav_header ++ List.replicate (280 * PSRAM_BUFFER_SIZE) 0))).2
      = some (wav_header ++ List.replicate (280 * PSRAM_BUFFER_SIZE) 0) ∧
    read_le32 (wav_header ++ List.replicate (280 * PSRAM_BUFFER_SIZE) 0) 40 = 0 := by
  have hlen : (wav_header ++ List.replicate (280 * PSRAM_BUFFER_SIZE) 0).length = 2150400044 := by
    rw [List.length_append, wav_header_length, List.length_replicate, arena_bytes]
  have hup := update_wav_header_refuses (wav_header ++ List.replicate (280 * PSRAM_BUFFER_SIZE) 0)
    (Or.inr (by rw [hlen]; norm_num))
  refine ⟨by rw [hlen]; norm_num, by rw [hup], by rw [hup], ?_⟩
  rw [read_le32_append_left _ _ _ (by decide)]
  decide

/-- C5: for every file of at least 44 bytes, `update_wav_header` applied to its own
output returns the same result: the same file bytes, hence the same 44-byte header. -/
theorem C5_finalize_idempotent (f : List Nat) (h : 44 ≤ f.length) :
    update_wav_header (update_wav_header (some f)).2 = update_wav_header (some f) ∧
    ((update_wav_header (update_wav_header (some f)).2).2.map (List.take 44)) =
      (update_wav_header (some f)).2.map (List.take 44) := by
  have key : update_wav_header (update_wav_header (some f)).2 = update_wav_header (some f) := by
    by_cases hfit : f.length < 2 ^ 31
    · have hup := update_wav_header_fits f h hfit
      have hl := patched_length f (f.length - 8) (f.length - 44) h
      have hup2 := update_wav_header_fits _ (by rw [hl]; exact h) (by rw [hl]; exact hfit)
      rw [hl, patched_twice _ _ _ h] at hup2
      rw [hup]
      exact hup2
    · have hup := update_wav_header_refuses f (Or.inr (by omega))
      rw [hup]
      exact hup
  exact ⟨key, by rw [key]⟩

/-- Witness for C5: the bare header followed by three payload bytes. -/
theorem C5_finalize_idempotent_witness :
    update_wav_header (update_wav_header (some (wav_header ++ [1, 2, 3]))).2 =
      update_wav_header (some (wav_header ++ [1, 2, 3])) ∧
    ((update_wav_header (update_wav_header (some (wav_header ++ [1, 2, 3]))).2).2.map
      (List.take 44)) = (update_wav_header (some (wav_header ++ [1, 2, 3]))).2.map (List.take 44) :=
  C5_finalize_idempotent (wav_header ++ [1, 2, 3]) (by decide)

/-! ## Claims about the dispatch -/

/-- C8 (as amended): the dispatch that ends `check_calendar`. When `current_value` is not
Record it requests deep sleep for exactly `next_change` minutes and starts no session.
When it is Record and `next_change = 0` it runs 60-minute sub-sessions in continuous mode,
each under the name generated just before it: if sub-session `k` is the first to report
failure, exactly the sub-sessions `0..k` run and the dispatch halts; as long as they
succeed it goes on. When it is Record and `next_change > 0` it runs exactly one session of
`next_change` minutes; if that session reports success it then requests deep sleep for 60
minutes, if it reports failure it halts without requesting sleep. -/
theorem C8_dispatch (outcome : Nat → Option Bool) (current_value : Int) (next_change : Nat) :
    (current_value ≠ RECORD_MODE →
      ∀ fuel, dispatch outcome fuel current_value next_change =
        [action.deep_sleep next_change]) ∧
    (current_value = RECORD_MODE → next_change = 0 →
      ∀ k, (∀ i, i < k → outcome i = some true) →
        (outcome k = some false → ∀ fuel, k < fuel →
          dispatch outcome fuel current_value next_change =
            action.generate_filename ::
              (continuous_trace k 0 ++ [action.session k 60 true, action.halt])) ∧
        (∀ fuel, fuel ≤ k →
          dispatch outcome fuel current_value next_change =
            action.generate_filename :: continuous_trace fuel 0)) ∧
    (current_value = RECORD_MODE → 0 < next_change →
      ∀ fuel,
        (outcome 0 = some true →
          dispatch outcome fuel current_value next_change =
            [action.generate_filename, action.session 0 next_change false,
              action.deep_sleep 60]) ∧
        (outcome 0 = some false →
          dispatch outcome fuel current_value next_change =
            [action.generate_filename, action.session 0 next_change false, action.halt])) := by
  refine ⟨?_, ?_, ?_⟩
  · intro h fuel
    simp [dispatch, h]
  · intro h hz k hk
    subst hz
    constructor
    · intro hfail fuel hf
      have := continuous_loop_failure outcome k fuel 0 hf (by simpa using hk) (by simpa using hfail)
      simp only [dispatch, h, if_true]
      simp only [Nat.zero_add] at this
      rw [this]
    · intro fuel hf
      have := continuous_loop_success outcome fuel 0
        (fun i hi => by simpa using hk i (by omega))
      simp only [dispatch, h, if_true]
      simp only [Nat.zero_add] at this
      rw [this]
  · intro h hpos fuel
    have hne : next_change ≠ 0 := by omega
    constructor
    · intro ho
      simp [dispatch, h, hne, ho]
    · intro ho
      simp [dispatch, h, hne, ho]

/-- Witness for C8: an Idle cell sleeps 17 minutes; under Record with `next_change = 0` and
a failure of the third sub-session, three sub-sessions run under the names 0, 1, 2; under
Record with `next_change = 5` and a successful session, one session of 5 minutes is
followed by a sleep of 60 minutes. -/
theorem C8_dispatch_witness :
    dispatch (fun _ => some true) 9 0 17 = [action.deep_sleep 17] ∧
    dispatch (fun i => some (decide (i < 2))) 9 1 0 =
      action.generate_filename ::
        (continuous_trace 2 0 ++ [action.session 2 60 true, action.halt]) ∧
    dispatch (fun _ => some true) 9 1 5 =
      [action.generate_filename, action.session 0 5 false, action.deep_sleep 60] :=
  ⟨(C8_dispatch (fun _ => some true) 0 17).1 (by decide) 9,
   ((C8_dispatch (fun i => some (decide (i < 2))) 1 0).2.1 rfl rfl 2
      (fun i hi => by simp [hi])).1 (by simp) 9 (by decide),
   ((C8_dispatch (fun _ => some true) 1 5).2.2 rfl (by decide) 9).1 rfl⟩

/-- C8 (counterexample): with `current_value` Record and `next_change = 5`, when the one
session reports failure the dispatch halts and never requests deep sleep. -/
theorem C8_counterexample :
    dispatch (fun _ => some false) 9 1 5 =
      [action.generate_filename, action.session 0 5 false, action.halt] ∧
    action.deep_sleep 60 ∉ dispatch (fun _ => some false) 9 1 5 := by
  decide

/-! ## Claims about the recorder -/

/-- C10 (failing input): a two-minute session on a card whose append-open of the container
fails in `sd_init_task` (first part), and one on a card whose first block write of the
drain returns 0 (second part). In both the failure occurs after the header was created,
nothing is appended to the 44-byte header, and `audio_recorder_start` returns true; while
the failure of the sibling open in `create_wav_header` is reported with false (third
part). -/
theorem C10_medium_failure_returns_true :
    ((capture_loop env_open_fails env_open_fails.cycles 0
        (session_start env_open_fails recorder_boot)).log =
        [event.open_failed, event.created sd_task.sd_init_task 990] ∧
      (audio_recorder_start env_open_fails true 2 recorder_boot).1 = some true ∧
      ∃ f, (audio_recorder_start env_open_fails true 2 recorder_boot).2.r.card_file = some f ∧
        f.length = 44) ∧
    ((capture_loop env_short_write env_short_write.cycles 0
        (session_start env_short_write recorder_boot)).log =
        [event.short_write 0, event.created sd_task.sd_write_task 991,
          event.created sd_task.sd_init_task 990] ∧
      (audio_recorder_start env_short_write true 2 recorder_boot).1 = some true ∧
      ∃ f, (audio_recorder_start env_short_write true 2 recorder_boot).2.r.card_file = some f ∧
        f.length = 44) ∧
    (audio_recorder_start { env_open_fails with create_ok := false } true 2 recorder_boot).1 =
      some false := by
  have h1 : (capture_loop env_open_fails env_open_fails.cycles 0
      (session_start env_open_fails recorder_boot)).r.current_state = RECORDER_STATE_IDLE := by
    decide!
  have h2 : (capture_loop env_short_write env_short_write.cycles 0
      (session_start env_short_write recorder_boot)).r.current_state = RECORDER_STATE_IDLE := by
    decide!
  have f1 : (capture_loop env_open_fails env_open_fails.cycles 0
      (session_start env_open_fails recorder_boot)).r.card_file = some wav_header := by
    decide!
  have f2 : (capture_loop env_short_write env_short_write.cycles 0
      (session_start env_short_write recorder_boot)).r.card_file = some wav_header := by
    decide!
  refine ⟨⟨by decide!, ?_, ?_⟩, ⟨by decide!, ?_, ?_⟩, rfl⟩
  · rw [audio_recorder_start_result _ _ _ (by decide) rfl, h1]
    simp
  · rw [audio_recorder_start_finalizes _ _ _ (by decide) rfl (by rw [h1]; decide), f1]
    exact ⟨_, rfl, by decide⟩
  · rw [audio_recorder_start_result _ _ _ (by decide) rfl, h2]
    simp
  · rw [audio_recorder_start_finalizes _ _ _ (by decide) rfl (by rw [h2]; decide), f2]
    exact ⟨_, rfl, by decide⟩

/-- C9 (as amended): capture overrun is not detected. For every recorder whose cursor is
inside the arena and every read of at most `sizeof(rx_buf)` bytes, `I2S_read` stores the
words it read at the cursor, wrapping the cursor modulo the capacity of the arena, and
what it leaves in the arena and in `i2s_write_pos` is the same for any other recorder
with the same arena and cursor, whatever its `sd_write_pos`, `current_state` and file;
and a session whose header was created never returns false. -/
theorem C9_overrun_not_detected (env : session_env) (minutes : Nat) (s a b : recorder)
    (rx_buf : Nat → Nat) (readsize : Nat)
    (hpos : a.i2s_write_pos < PSRAM_BUFFER_SIZE / 2) (hread : readsize ≤ 15360)
    (hbuf : b.psram_buffer = a.psram_buffer) (hcur : b.i2s_write_pos = a.i2s_write_pos)
    (hmin : minutes ≠ 0) (hok : env.create_ok = true) :
    (I2S_read rx_buf readsize a).i2s_write_pos =
      (a.i2s_write_pos + (readsize / 2 + 1) / 2) % (PSRAM_BUFFER_SIZE / 2) ∧
    (∀ t, t < (readsize / 2 + 1) / 2 →
      (I2S_read rx_buf readsize a).psram_buffer
        ((a.i2s_write_pos + t) % (PSRAM_BUFFER_SIZE / 2)) = rx_buf (2 * t)) ∧
    (I2S_read rx_buf readsize b).psram_buffer = (I2S_read rx_buf readsize a).psram_buffer ∧
    (I2S_read rx_buf readsize b).i2s_write_pos = (I2S_read rx_buf readsize a).i2s_write_pos ∧
    (I2S_read rx_buf readsize a).sd_write_pos = a.sd_write_pos ∧
    (audio_recorder_start env true minutes s).1 ≠ some false := by
  rw [arena_words] at hpos ⊢
  obtain ⟨ha, -, hc⟩ := I2S_read_spec rx_buf readsize a hpos
  refine ⟨ha, hc (by omega), ?_, ?_, rfl, ?_⟩
  · simp only [I2S_read, hbuf, hcur]
  · simp only [I2S_read, hbuf, hcur]
  · rw [audio_recorder_start_result env minutes s hmin hok]
    split <;> simp

/-- Witness for C9: a full read at boot, compared with the same read on a recorder whose
drain cursor and state differ. -/
theorem C9_overrun_not_detected_witness :
    (I2S_read (fun i => i + 7) 15360 recorder_boot).i2s_write_pos =
      (recorder_boot.i2s_write_pos + (15360 / 2 + 1) / 2) % (PSRAM_BUFFER_SIZE / 2) ∧
    (∀ t, t < (15360 / 2 + 1) / 2 →
      (I2S_read (fun i => i + 7) 15360 recorder_boot).psram_buffer
        ((recorder_boot.i2s_write_pos + t) % (PSRAM_BUFFER_SIZE / 2)) = (fun i => i + 7) (2 * t)) ∧
    (I2S_read (fun i => i + 7) 15360
        { recorder_boot with sd_write_pos := 3072,
                             current_state := RECORDER_STATE_WRITING_SD }).psram_buffer =
      (I2S_read (fun i => i + 7) 15360 recorder_boot).psram_buffer ∧
    (I2S_read (fun i => i + 7) 15360
        { recorder_boot with sd_write_pos := 3072,
                             current_state := RECORDER_STATE_WRITING_SD }).i2s_write_pos =
      (I2S_read (fun i => i + 7) 15360 recorder_boot).i2s_write_pos ∧
    (I2S_read (fun i => i + 7) 15360 recorder_boot).sd_write_pos = recorder_boot.sd_write_pos ∧
    (audio_recorder_start env_stalled_drain true 2 recorder_boot).1 ≠ some false :=
  C9_overrun_not_detected env_stalled_drain 2 recorder_boot recorder_boot
    { recorder_boot with sd_write_pos := 3072, current_state := RECORDER_STATE_WRITING_SD }
    (fun i => i + 7) 15360 (by decide) (by decide) rfl rfl (by decide) rfl

/-- C9 (counterexample): a two-minute session, started from boot, whose drain is created in
capture cycle 991 and then gets no step. After 1000 capture cycles the drain is in
flight with `sd_write_pos = 0`, word 0 of the arena holds the sample of cycle 0 and the
capture cursor has wrapped to 0; capture cycle 1000 overwrites word 0, which was never
written to the card; no event other than the creation of the two tasks occurs, and
`audio_recorder_start` returns true. -/
theorem C9_counterexample :
    ((capture_loop env_stalled_drain 1000 0
        (session_start env_stalled_drain recorder_boot)).tasks = [sd_task.sd_write_task] ∧
      (capture_loop env_stalled_drain 1000 0
        (session_start env_stalled_drain recorder_boot)).r.sd_write_pos = 0 ∧
      (capture_loop env_stalled_drain 1000 0
        (session_start env_stalled_drain recorder_boot)).r.psram_buffer 0 = 1 ∧
      (capture_loop env_stalled_drain 1000 0
        (session_start env_stalled_drain recorder_boot)).r.i2s_write_pos = 0) ∧
    ((capture_loop env_stalled_drain 1001 0
        (session_start env_stalled_drain recorder_boot)).tasks = [sd_task.sd_write_task] ∧
      (capture_loop env_stalled_drain 1001 0
        (session_start env_stalled_drain recorder_boot)).r.sd_write_pos = 0 ∧
      (capture_loop env_stalled_drain 1001 0
        (session_start env_stalled_drain recorder_boot)).r.psram_buffer 0 = 1001 ∧
      (capture_loop env_stalled_drain 1001 0
        (session_start env_stalled_drain recorder_boot)).r.card_file = some wav_header) ∧
    ((capture_loop env_stalled_drain env_stalled_drain.cycles 0
        (session_start env_stalled_drain recorder_boot)).log =
        [event.created sd_task.sd_write_task 991, event.created sd_task.sd_init_task 990] ∧
      (audio_recorder_start env_stalled_drain true 2 recorder_boot).1 = some true) := by
  have hfull : ∀ k, env_stalled_drain.readsize k = 15360 := fun _ => rfl
  have hstart : (session_start env_stalled_drain recorder_boot).r.i2s_write_pos % 3840 = 0 ∧
      (session_start env_stalled_drain recorder_boot).r.i2s_write_pos < 3840000 := by
    constructor <;> decide
  rw [audio_recorder_start_result _ _ _ (by decide) rfl]
  rw [capture_loop_eq_full _ hfull 1000 0 _ hstart, capture_loop_eq_full _ hfull 1001 0 _ hstart,
    capture_loop_eq_full _ hfull env_stalled_drain.cycles 0 _ hstart]
  refine ⟨by decide!, by decide!, by decide!, ?_⟩
  have h : (capture_loop_full env_stalled_drain env_stalled_drain.cycles 0
      (session_start env_stalled_drain recorder_boot)).r.current_state = RECORDER_STATE_IDLE := by
    decide!
  rw [h]
  simp

/-- C13: the header written by `create_wav_header` has exactly 44 bytes; the tags `RIFF`,
`WAVE`, `fmt ` and `data` stand at byte offsets 0, 8, 12 and 36; the fmt chunk size is 16
and the format tag 1; the two size fields at offsets 4 and 40 are zero; the sample rate
is `SAMPLERATE`, the bits per sample 16, the block align `channels * bitsPerSample / 8`
and the byte rate `sampleRate * blockAlign`. -/
theorem C13_wav_header_well_formed :
    (∀ old, create_wav_header true old = (true, some wav_header)) ∧
    wav_header.length = 44 ∧
    bytes_at wav_header 0 = tag "RIFF" ∧ tag "RIFF" = [0x52, 0x49, 0x46, 0x46] ∧
    bytes_at wav_header 8 = tag "WAVE" ∧ tag "WAVE" = [0x57, 0x41, 0x56, 0x45] ∧
    bytes_at wav_header 12 = tag "fmt " ∧ tag "fmt " = [0x66, 0x6D, 0x74, 0x20] ∧
    bytes_at wav_header 36 = tag "data" ∧ tag "data" = [0x64, 0x61, 0x74, 0x61] ∧
    read_le32 wav_header 16 = 16 ∧ read_le16 wav_header 20 = 1 ∧
    read_le32 wav_header 4 = 0 ∧ read_le32 wav_header 40 = 0 ∧
    read_le32 wav_header 24 = SAMPLERATE ∧ read_le16 wav_header 34 = 16 ∧
    read_le16 wav_header 32 = read_le16 wav_header 22 * read_le16 wav_header 34 / 8 ∧
    read_le32 wav_header 28 = read_le32 wav_header 24 * read_le16 wav_header 32 := by
  refine ⟨fun _ => rfl, ?_⟩
  decide

/-- C15: for every read of `readsize ≤ 15360` bytes and every cursor `p` below the capacity
`PSRAM_BUFFER_SIZE / 2`, with `n = (readsize / 2 + 1) / 2` (the ceiling of half of
`readsize / 2`), `I2S_read` leaves `rx_buf[2 * t]` at position `(p + t) mod cap` for every
`t < n`, leaves `i2s_write_pos = (p + n) mod cap`, and leaves every other arena cell as it
was. -/
theorem C15_I2S_read_stores_even_words (rx_buf : Nat → Nat) (readsize : Nat) (s : recorder)
    (hread : readsize ≤ 15360) (hpos : s.i2s_write_pos < PSRAM_BUFFER_SIZE / 2) :
    (∀ t, t < (readsize / 2 + 1) / 2 →
      (I2S_read rx_buf readsize s).psram_buffer
        ((s.i2s_write_pos + t) % (PSRAM_BUFFER_SIZE / 2)) = rx_buf (2 * t)) ∧
    (I2S_read rx_buf readsize s).i2s_write_pos =
      (s.i2s_write_pos + (readsize / 2 + 1) / 2) % (PSRAM_BUFFER_SIZE / 2) ∧
    (∀ j, (∀ t, t < (readsize / 2 + 1) / 2 →
        j ≠ (s.i2s_write_pos + t) % (PSRAM_BUFFER_SIZE / 2)) →
      (I2S_read rx_buf readsize s).psram_buffer j = s.psram_buffer j) := by
  rw [arena_words] at hpos ⊢
  obtain ⟨ha, hb, hc⟩ := I2S_read_spec rx_buf readsize s hpos
  exact ⟨hc (by omega), ha, hb⟩

/-- Witness for C15: a read of 8 bytes with the cursor on the last word of the arena stores
`rx_buf[0]` there and `rx_buf[2]` in word 0, and leaves the cursor at 1. -/
theorem C15_I2S_read_stores_even_words_witness :
    (∀ t, t < (8 / 2 + 1) / 2 →
      (I2S_read (fun i => i + 7) 8 { recorder_boot with i2s_write_pos := 3839999 }).psram_buffer
        ((3839999 + t) % (PSRAM_BUFFER_SIZE / 2)) = (fun i => i + 7) (2 * t)) ∧
    (I2S_read (fun i => i + 7) 8 { recorder_boot with i2s_write_pos := 3839999 }).i2s_write_pos =
      (3839999 + (8 / 2 + 1) / 2) % (PSRAM_BUFFER_SIZE / 2) ∧
    (∀ j, (∀ t, t < (8 / 2 + 1) / 2 → j ≠ (3839999 + t) % (PSRAM_BUFFER_SIZE / 2)) →
      (I2S_read (fun i => i + 7) 8 { recorder_boot with i2s_write_pos := 3839999 }).psram_buffer j
        = recorder_boot.psram_buffer j) :=
  C15_I2S_read_stores_even_words (fun i => i + 7) 8
    { recorder_boot with i2s_write_pos := 3839999 } (by decide) (by decide)

/-- C17 (as amended): `sd_init_task` and the loop of `sd_write_task` leave `i2s_write_pos`
unchanged, but `sd_write_task` ends by resetting it to 0; `I2S_read` and `SD_write` leave
`sd_write_pos` unchanged, and so does a capture cycle in which no task step is taken, but
`audio_recorder_start` resets it to 0 before its capture loop. -/
theorem C17_cursor_writers (env : session_env) (fwrite_ret : Nat → Nat → Nat) (open_ok : Bool)
    (rx_buf : Nat → Nat) (readsize fuel k : Nat) (s : recorder) (x : session)
    (hsteps : env.steps k = 0) :
    (sd_init_task open_ok s).i2s_write_pos = s.i2s_write_pos ∧
    (drain_loop fwrite_ret fuel s).i2s_write_pos = s.i2s_write_pos ∧
    (sd_write_task fwrite_ret s).i2s_write_pos = 0 ∧
    (I2S_read rx_buf readsize s).sd_write_pos = s.sd_write_pos ∧
    (SD_write s).1.sd_write_pos = s.sd_write_pos ∧
    (capture_cycle env k x).r.sd_write_pos = x.r.sd_write_pos ∧
    (session_start env s).r.sd_write_pos = 0 := by
  refine ⟨?_, drain_loop_i2s_write_pos fwrite_ret fuel s, rfl, rfl, SD_write_sd_write_pos s, ?_, rfl⟩
  · unfold sd_init_task
    split <;> rfl
  · have ha : steps_before_SD_write env k = 0 := by
      unfold steps_before_SD_write
      rw [hsteps]
      exact Nat.min_zero _
    have hb : steps_before_increment env k = 0 := by
      unfold steps_before_increment
      rw [hsteps, ha]
      exact Nat.min_zero _
    have hc : steps_after_increment env k = 0 := by
      unfold steps_after_increment
      rw [hsteps, ha, hb]
    unfold capture_cycle cycle_from_SD_write at_SD_write
    rw [ha, hb, hc]
    simp only [task_steps, increment_cycle_count, SD_write_step]
    rw [SD_write_sd_write_pos]
    rfl

/-- Witness for C17: a capture cycle of the session whose tasks get no step after cycle 990. -/
theorem C17_cursor_writers_witness :
    (sd_init_task true recorder_boot).i2s_write_pos = recorder_boot.i2s_write_pos ∧
    (drain_loop (fun _ n => n) 3 recorder_boot).i2s_write_pos = recorder_boot.i2s_write_pos ∧
    (sd_write_task (fun _ n => n) recorder_boot).i2s_write_pos = 0 ∧
    (I2S_read (fun i => i) 8 recorder_boot).sd_write_pos = recorder_boot.sd_write_pos ∧
    (SD_write recorder_boot).1.sd_write_pos = recorder_boot.sd_write_pos ∧
    (capture_cycle env_stalled_drain 991 (session_of recorder_boot)).r.sd_write_pos =
      (session_of recorder_boot).r.sd_write_pos ∧
    (session_start env_stalled_drain recorder_boot).r.sd_write_pos = 0 :=
  C17_cursor_writers env_stalled_drain (fun _ n => n) true (fun i => i) 8 3 991 recorder_boot
    (session_of recorder_boot) (by decide)

/-- C17 (counterexample): with the capture cursor at word 3840, `sd_write_task` leaves it at
0; with the drain cursor at byte 3072, `audio_recorder_start` starts its capture loop with
the drain cursor at 0. -/
theorem C17_counterexample :
    (sd_write_task (fun _ n => n) { recorder_boot with i2s_write_pos := 3840 }).i2s_write_pos
      ≠ 3840 ∧
    (session_start env_one_minute { recorder_boot with sd_write_pos := 3072 }).r.sd_write_pos
      ≠ 3072 := by
  constructor
  · show (0 : Nat) ≠ 3840
    decide
  · show (0 : Nat) ≠ 3072
    decide

/-- C11 (as amended): the changes of `current_state`. `SD_write` changes it only in state
Recording, where it creates `sd_write_task` and sets Idle; `sd_init_task` sets Recording
when the append-open succeeds, from whatever state it finds, and changes nothing when it
fails; the drain loop of `sd_write_task` leaves the state as it finds it, and
`sd_write_task` ends in Idle. Hence throughout the capture loop of a session the state is
Idle or Recording: `RECORDER_STATE_INIT_SD` and `RECORDER_STATE_WRITING_SD` never occur. -/
theorem C11_state_changes (env : session_env) (fwrite_ret : Nat → Nat → Nat) (n fuel : Nat)
    (s : recorder) :
    (s.current_state = RECORDER_STATE_RECORDING →
      SD_write s = ({ s with current_state := RECORDER_STATE_IDLE }, some sd_task.sd_write_task)) ∧
    (s.current_state ≠ RECORDER_STATE_RECORDING →
      (SD_write s).1.current_state = s.current_state) ∧
    (sd_init_task true s).current_state = RECORDER_STATE_RECORDING ∧
    (sd_init_task false s).current_state = s.current_state ∧
    (drain_loop fwrite_ret fuel s).current_state = s.current_state ∧
    (sd_write_task fwrite_ret s).current_state = RECORDER_STATE_IDLE ∧
    ((capture_loop env n 0 (session_start env s)).r.current_state = RECORDER_STATE_IDLE ∨
      (capture_loop env n 0 (session_start env s)).r.current_state =
        RECORDER_STATE_RECORDING) := by
  refine ⟨?_, ?_, rfl, rfl, drain_loop_current_state fwrite_ret fuel s, rfl, ?_⟩
  · intro h
    unfold SD_write
    rw [h]
  · intro h
    unfold SD_write
    split
    · split <;> rfl
    · rename_i h2
      exact absurd h2 h
    · rfl
  · exact capture_loop_idle_or_recording env n 0 _ (Or.inl rfl)

/-- Witness for C11: `SD_write` in state Recording. -/
theorem C11_state_changes_witness :
    SD_write { recorder_boot with current_state := RECORDER_STATE_RECORDING } =
      ({ { recorder_boot with current_state := RECORDER_STATE_RECORDING } with
          current_state := RECORDER_STATE_IDLE }, some sd_task.sd_write_task) ∧
    (SD_write recorder_boot).1.current_state = recorder_boot.current_state :=
  ⟨(C11_state_changes env_stalled_drain (fun _ n => n) 0 0
      { recorder_boot with current_state := RECORDER_STATE_RECORDING }).1 rfl,
   (C11_state_changes env_stalled_drain (fun _ n => n) 0 0 recorder_boot).2.1 (by decide)⟩

/-- C11 (counterexample): `SD_write` in state Recording creates the drain and leaves the
state Idle, not `RECORDER_STATE_WRITING_SD`; `sd_init_task` takes the state from Idle to
Recording at once; and in the session whose drain stalls, after 1000 capture cycles the
drain is in flight and the state is Idle. -/
theorem C11_counterexample :
    ((SD_write { recorder_boot with current_state := RECORDER_STATE_RECORDING }).2 =
        some sd_task.sd_write_task ∧
      (SD_write { recorder_boot with current_state := RECORDER_STATE_RECORDING }).1.current_state
        = RECORDER_STATE_IDLE) ∧
    (recorder_boot.current_state = RECORDER_STATE_IDLE ∧
      (sd_init_task true recorder_boot).current_state = RECORDER_STATE_RECORDING) ∧
    ((capture_loop env_stalled_drain 1000 0
        (session_start env_stalled_drain recorder_boot)).tasks = [sd_task.sd_write_task] ∧
      (capture_loop env_stalled_drain 1000 0
        (session_start env_stalled_drain recorder_boot)).r.current_state =
          RECORDER_STATE_IDLE) := by
  refine ⟨by decide, by decide, ?_⟩
  decide!

/-- C18: for every calendar file and valid clock reading, `check_calendar` takes the
continuous branch (`current_value == RECORD_MODE` and `next_change == 0`) exactly when
every cell of the loaded grid is Record, and its trace is then that of the continuous
loop; and whenever `current_value` is Record, `get_next_change_time` does not leave
through its "No change found" fallback. -/
theorem C18_continuous_iff_all_record (outcome : Nat → Option Bool) (fuel : Nat)
    (lines : List csv_line) (h d m : Nat) (hh : h < 24) (hd : d < 7) (hm : m < 60) :
    (((check_calendar_decision lines h d m).1 = RECORD_MODE ∧
        (check_calendar_decision lines h d m).2 = 0) ↔
      ∀ h2 d2, h2 < 24 → d2 < 7 → (load_calendar lines).schedule h2 d2 = RECORD_MODE) ∧
    ((∀ h2 d2, h2 < 24 → d2 < 7 → (load_calendar lines).schedule h2 d2 = RECORD_MODE) →
      check_calendar outcome fuel lines h d m =
        action.generate_filename :: continuous_loop outcome fuel 0 1 0) ∧
    ((check_calendar_decision lines h d m).1 = RECORD_MODE →
      no_change_fallback (load_calendar lines) m h d (check_calendar_decision lines h d m).1
        = false) := by
  have hcv := current_value_of_loaded lines h d hh hd
  have hex : (load_calendar lines).file_exists = true := rfl
  have hnc : (check_calendar_decision lines h d m).2 =
      minutesUntilNextChange (load_calendar lines) m h d ((load_calendar lines).schedule h d) := by
    simp only [check_calendar_decision, hcv]
    exact get_next_change_time_reference _ m h d _ hh hd hm
  have hc1 : (check_calendar_decision lines h d m).1 = (load_calendar lines).schedule h d := hcv
  have hcond : ¬ ((load_calendar lines).file_exists = false ∨
      (load_calendar lines).schedule h d ≠ (load_calendar lines).schedule h d) := by simp [hex]
  have hiff : ((check_calendar_decision lines h d m).1 = RECORD_MODE ∧
        (check_calendar_decision lines h d m).2 = 0) ↔
      ∀ h2 d2, h2 < 24 → d2 < 7 → (load_calendar lines).schedule h2 d2 = RECORD_MODE := by
    rw [hnc, hc1]
    constructor
    · rintro ⟨hv, hz⟩
      unfold minutesUntilNextChange at hz
      rw [if_neg hcond] at hz
      by_cases ha : (List.range' (d * 24 + h + 1) 167).any
          (fun i => decide (cell_at (load_calendar lines) i ≠ (load_calendar lines).schedule h d))
          = true
      · rw [if_pos ha] at hz
        omega
      · have hu := (not_any_iff_uniform (load_calendar lines) _ h d hh hd rfl).1
          (by simpa using ha)
        intro h2 d2 hh2 hd2
        rw [hu h2 d2 hh2 hd2, hv]
    · intro hall
      have hv : (load_calendar lines).schedule h d = RECORD_MODE := hall h d hh hd
      refine ⟨hv, ?_⟩
      have ha : ¬ (List.range' (d * 24 + h + 1) 167).any
          (fun i => decide (cell_at (load_calendar lines) i ≠ (load_calendar lines).schedule h d))
          = true := by
        rw [(not_any_iff_uniform (load_calendar lines) _ h d hh hd rfl).2
          (fun h2 d2 hh2 hd2 => by rw [hall h2 d2 hh2 hd2, hv])]
        exact Bool.false_ne_true
      unfold minutesUntilNextChange
      rw [if_neg hcond, if_neg ha, if_pos ⟨hv, load_calendar_all_ones lines hall⟩]
  refine ⟨hiff, ?_, ?_⟩
  · intro hall
    obtain ⟨h1, h2⟩ := hiff.2 hall
    simp only [check_calendar, dispatch, h1, h2, if_true]
  · intro hv
    rw [hc1] at hv ⊢
    unfold no_change_fallback
    have hcond2 : (!(load_calendar lines).file_exists ||
        decide ((load_calendar lines).schedule h d ≠ (load_calendar lines).schedule h d)) = false := by
      simp [hex]
    simp only [hcond2, Bool.false_eq_true, if_false]
    obtain ⟨e1, e2⟩ := index_of_hour_day h d hh hd
    have e3 : advance_hour h d = ((d * 24 + h + 1) % 24, (d * 24 + h + 1) / 24 % 7) := by
      have := advance_hour_index (d * 24 + h)
      rwa [e1, e2] at this
    have e4 : HOURS_IN_DAY * DAYS_IN_WEEK - 1 = 167 := rfl
    simp only [e3]
    rw [e4, change_scan_index]
    by_cases ha : (List.range' (d * 24 + h + 1) 167).any
        (fun i => decide (cell_at (load_calendar lines) i ≠ (load_calendar lines).schedule h d))
        = true
    · rw [if_pos ha]
    · rw [if_neg ha]
      have hu := (not_any_iff_uniform (load_calendar lines) _ h d hh hd rfl).1
        (by simpa using ha)
      have hall : ∀ h2 d2, h2 < 24 → d2 < 7 →
          (load_calendar lines).schedule h2 d2 = RECORD_MODE := by
        intro h2 d2 hh2 hd2
        rw [hu h2 d2 hh2 hd2, hv]
      simp only [hv, load_calendar_all_ones lines hall, and_self, if_true]

/-- Witness for C18: the calendar whose 24 rows hold 1 for every day, on Wednesday 13:27. -/
theorem C18_continuous_iff_all_record_witness :
    (check_calendar_decision
        ((List.range 24).map (fun hour => (hour : Int) :: List.replicate 7 1)) 13 3 27).1
        = RECORD_MODE ∧
    (check_calendar_decision
        ((List.range 24).map (fun hour => (hour : Int) :: List.replicate 7 1)) 13 3 27).2 = 0 :=
  (C18_continuous_iff_all_record (fun _ => some true) 0
    ((List.range 24).map (fun hour => (hour : Int) :: List.replicate 7 1)) 13 3 27
    (by decide) (by decide) (by decide)).1.2
    (fun h2 d2 hh2 hd2 => by
      have e : ∀ a, a < 24 → ∀ b, b < 7 → (load_calendar
          ((List.range 24).map (fun hour => (hour : Int) :: List.replicate 7 1))).schedule a b
          = RECORD_MODE := by decide
      exact e h2 hh2 d2 hd2)

/-- C19: for every calendar file and valid clock reading, when the current cell is not
Record `check_calendar` requests one deep sleep, of `next_change` minutes, with
`1 ≤ next_change ≤ 10020`; and `next_change * 60 * 1000000` is below `2 ^ 64`, so the
wake-up time handed to the timer is that product. -/
theorem C19_sleep_duration_bounds (outcome : Nat → Option Bool) (fuel : Nat)
    (lines : List csv_line) (h d m : Nat) (hh : h < 24) (hd : d < 7) (hm : m < 60)
    (hidle : (check_calendar_decision lines h d m).1 ≠ RECORD_MODE) :
    check_calendar outcome fuel lines h d m =
      [action.deep_sleep (check_calendar_decision lines h d m).2] ∧
    1 ≤ (check_calendar_decision lines h d m).2 ∧
    (check_calendar_decision lines h d m).2 ≤ 10020 ∧
    (check_calendar_decision lines h d m).2 * 60 * 1000000 < 2 ^ 64 ∧
    enter_deep_sleep (check_calendar_decision lines h d m).2 =
      (check_calendar_decision lines h d m).2 * 60 * 1000000 := by
  have hcv := current_value_of_loaded lines h d hh hd
  have hex : (load_calendar lines).file_exists = true := rfl
  have hnc : (check_calendar_decision lines h d m).2 =
      minutesUntilNextChange (load_calendar lines) m h d ((load_calendar lines).schedule h d) := by
    simp only [check_calendar_decision, hcv]
    exact get_next_change_time_reference _ m h d _ hh hd hm
  have hc1 : (check_calendar_decision lines h d m).1 = (load_calendar lines).schedule h d := hcv
  have hcond : ¬ ((load_calendar lines).file_exists = false ∨
      (load_calendar lines).schedule h d ≠ (load_calendar lines).schedule h d) := by simp [hex]
  have hv : (load_calendar lines).schedule h d ≠ RECORD_MODE := by rwa [hc1] at hidle
  have hk := takeWhile_range_length_le
    (fun i => decide (cell_at (load_calendar lines) i = (load_calendar lines).schedule h d))
    (d * 24 + h + 1) 167
  have hbounds : 1 ≤ (check_calendar_decision lines h d m).2 ∧
      (check_calendar_decision lines h d m).2 ≤ 10020 := by
    rw [hnc]
    unfold minutesUntilNextChange
    rw [if_neg hcond]
    by_cases ha : (List.range' (d * 24 + h + 1) 167).any
        (fun i => decide (cell_at (load_calendar lines) i ≠ (load_calendar lines).schedule h d))
        = true
    · rw [if_pos ha]
      have := (unchanged_run_spec (load_calendar lines) _ (d * 24 + h + 1) ha).1
      omega
    · rw [if_neg ha, if_neg (fun c => hv c.1)]
      omega
  have hlt : (check_calendar_decision lines h d m).2 * 60 * 1000000 < 2 ^ 64 := by
    have : (check_calendar_decision lines h d m).2 * 60 * 1000000 ≤ 10020 * 60 * 1000000 := by
      have := hbounds.2
      omega
    exact lt_of_le_of_lt this (by norm_num)
  refine ⟨?_, hbounds.1, hbounds.2, hlt, Nat.mod_eq_of_lt hlt⟩
  simp only [check_calendar, dispatch, hidle, if_false]

/-- Witness for C19: the default calendar on Wednesday 13:27 sleeps for the 60-minute
fallback. -/
theorem C19_sleep_duration_bounds_witness :
    check_calendar (fun _ => some true) 0 default_calendar_lines 13 3 27 =
      [action.deep_sleep (check_calendar_decision default_calendar_lines 13 3 27).2] ∧
    1 ≤ (check_calendar_decision default_calendar_lines 13 3 27).2 ∧
    (check_calendar_decision default_calendar_lines 13 3 27).2 ≤ 10020 ∧
    (check_calendar_decision default_calendar_lines 13 3 27).2 * 60 * 1000000 < 2 ^ 64 ∧
    enter_deep_sleep (check_calendar_decision default_calendar_lines 13 3 27).2 =
      (check_calendar_decision default_calendar_lines 13 3 27).2 * 60 * 1000000 :=
  C19_sleep_duration_bounds (fun _ => some true) 0 default_calendar_lines 13 3 27
    (by decide) (by decide) (by decide) (by decide!)

/-- C14: for every behaviour `fwrite_ret` of the block write, the drain loop started at
`sd_write_pos = 0` with at least 2500 iterations allowed (`sd_write_task` allows
`PSRAM_BUFFER_SIZE`) behaves as with 2500; it issues at most 2500 writes; its `i`-th write
is at arena offset `3072 * i` and asks for `min(3072, PSRAM_BUFFER_SIZE - 3072 * i)` bytes;
every write but the last returns all its bytes, and the last one is short unless 2500
writes were issued; and when no write is short, 2500 writes are issued, `sd_write_pos`
ends at `PSRAM_BUFFER_SIZE` and the bytes appended to the file are the 7,680,000 bytes of
the arena in order. -/
theorem C14_drain_loop (fwrite_ret : Nat → Nat → Nat) (fuel : Nat) (s : recorder)
    (hpos : s.sd_write_pos = 0) (hfuel : 2500 ≤ fuel) :
    (drain_loop fwrite_ret fuel s = drain_loop fwrite_ret 2500 s ∧
      drain_writes fwrite_ret fuel s = drain_writes fwrite_ret 2500 s) ∧
    (drain_writes fwrite_ret fuel s).length ≤ 2500 ∧
    (∀ i w, (drain_writes fwrite_ret fuel s)[i]? = some w →
      w.1 = 3072 * i ∧ w.2.1 = min 3072 (PSRAM_BUFFER_SIZE - 3072 * i) ∧
      w.2.2 = min (fwrite_ret (3072 * i) w.2.1) w.2.1) ∧
    (∀ i, i + 1 < (drain_writes fwrite_ret fuel s).length →
      3072 ≤ fwrite_ret (3072 * i) 3072) ∧
    ((drain_writes fwrite_ret fuel s).length < 2500 →
      ∃ i, i + 1 = (drain_writes fwrite_ret fuel s).length ∧
        fwrite_ret (3072 * i) 3072 < 3072) ∧
    ((∀ i, i < 2500 → 3072 ≤ fwrite_ret (3072 * i) 3072) →
      (drain_writes fwrite_ret fuel s).length = 2500 ∧
      (drain_loop fwrite_ret fuel s).sd_write_pos = PSRAM_BUFFER_SIZE ∧
      (drain_loop fwrite_ret fuel s).card_file =
        s.card_file.map (fun f => f ++
          (List.range' 0 PSRAM_BUFFER_SIZE).map (psram_byte s.psram_buffer))) := by
  have hpos2 : s.sd_write_pos = 3072 * 0 := by rw [hpos]
  obtain ⟨h1, h2, h3, h4⟩ := drain_writes_blocks fwrite_ret fuel 0 s hpos2 (by omega) (by omega)
  have hf := drain_loop_fuel fwrite_ret fuel 0 s hpos2 (by omega) (by omega)
  simp only [Nat.sub_zero, Nat.zero_add] at h1 h2 h3 h4 hf
  refine ⟨hf, h1, ?_, h3, h4, ?_⟩
  · intro i w hw
    have hlen : i < (drain_writes fwrite_ret fuel s).length := by
      by_contra hge
      rw [List.getElem?_eq_none (by omega)] at hw
      exact Option.noConfusion hw
    have hb : min 3072 (PSRAM_BUFFER_SIZE - 3072 * i) = 3072 := by
      rw [arena_bytes]; omega
    have e := h2 i w hw
    subst e
    exact ⟨rfl, hb.symm, rfl⟩
  · intro hall
    obtain ⟨c1, c2, c3⟩ := drain_loop_complete fwrite_ret fuel 0 s hpos2 (by omega) (by omega)
      (fun i _ hi => hall i hi)
    refine ⟨c1, c2, ?_⟩
    rw [c3, arena_bytes]

/-- Witness for C14: the drain of `sd_write_task` on a card that takes every block. -/
theorem C14_drain_loop_witness :
    (drain_writes (fun _ n => n) PSRAM_BUFFER_SIZE recorder_boot).length = 2500 ∧
    (drain_loop (fun _ n => n) PSRAM_BUFFER_SIZE recorder_boot).sd_write_pos = PSRAM_BUFFER_SIZE ∧
    (drain_loop (fun _ n => n) PSRAM_BUFFER_SIZE recorder_boot).card_file =
      recorder_boot.card_file.map (fun f => f ++
        (List.range' 0 PSRAM_BUFFER_SIZE).map (psram_byte recorder_boot.psram_buffer)) :=
  (C14_drain_loop (fun _ n => n) PSRAM_BUFFER_SIZE recorder_boot rfl (by decide)).2.2.2.2.2
    (fun _ _ => le_refl _)

/-- C20: the cursor bounds `i2s_write_pos < PSRAM_BUFFER_SIZE / 2` and
`sd_write_pos ≤ PSRAM_BUFFER_SIZE` hold after `audio_recorder_init` and when the capture
loop of `audio_recorder_start` starts, and they are kept by `I2S_read` (for reads of at
most 15360 bytes), by `sd_init_task`, by the loop of `sd_write_task` and by
`sd_write_task`; under them every index that `I2S_read` uses is inside `psram_buffer`
(`PSRAM_BUFFER_SIZE / 2` words) and inside `rx_buf` (`I2S_BUFFERSIZE` words), and every
block `[sd_write_pos, sd_write_pos + bytes_to_write)` of the drain lies inside the arena. -/
theorem C20_cursor_bounds (env : session_env) (fwrite_ret : Nat → Nat → Nat) (open_ok : Bool)
    (rx_buf : Nat → Nat) (readsize fuel : Nat) (s0 s : recorder)
    (hread : readsize ≤ 15360) (hs : cursors_in_bounds s) :
    cursors_in_bounds (audio_recorder_init s0) ∧
    cursors_in_bounds (session_start env s0).r ∧
    cursors_in_bounds (I2S_read rx_buf readsize s) ∧
    cursors_in_bounds (sd_init_task open_ok s) ∧
    cursors_in_bounds (drain_loop fwrite_ret fuel s) ∧
    cursors_in_bounds (sd_write_task fwrite_ret s) ∧
    (∀ a, a ∈ I2S_read_accesses readsize (readsize / 2) 0 s.i2s_write_pos →
      a.1 < PSRAM_BUFFER_SIZE / 2 ∧ a.2 < I2S_BUFFERSIZE) ∧
    (∀ w, w ∈ drain_writes fwrite_ret fuel s →
      w.2.1 = min 3072 (PSRAM_BUFFER_SIZE - w.1) ∧ w.1 + w.2.1 ≤ PSRAM_BUFFER_SIZE) := by
  obtain ⟨hi, hd⟩ := hs
  have hcap : (0 : Nat) < PSRAM_BUFFER_SIZE / 2 := by decide
  refine ⟨⟨hcap, Nat.zero_le _⟩, ⟨hcap, Nat.zero_le _⟩, ⟨?_, hd⟩, ?_, ⟨?_, ?_⟩,
    ⟨hcap, Nat.zero_le _⟩, ?_, ?_⟩
  · rw [arena_words] at hi ⊢
    rw [(I2S_read_spec rx_buf readsize s hi).1]
    exact Nat.mod_lt _ (by norm_num)
  · unfold sd_init_task
    split
    · exact ⟨hi, hd⟩
    · exact ⟨hi, Nat.zero_le _⟩
  · rw [drain_loop_i2s_write_pos]
    exact hi
  · exact drain_loop_sd_write_pos_le fwrite_ret fuel s hd
  · intro a ha
    rw [arena_words] at hi ⊢
    have := I2S_read_accesses_in_bounds readsize (readsize / 2) 0 s.i2s_write_pos hi a ha
    have hsz : I2S_BUFFERSIZE = 7680 := by decide
    rw [hsz]
    omega
  · intro w hw
    have := drain_writes_in_arena fwrite_ret fuel s w hw
    exact ⟨this.2.1, this.2.2.1⟩

/-- Witness for C20: the recorder at boot and a full read. -/
theorem C20_cursor_bounds_witness :
    cursors_in_bounds (I2S_read (fun i => i) 15360 recorder_boot) ∧
    cursors_in_bounds (drain_loop (fun _ n => n) PSRAM_BUFFER_SIZE recorder_boot) :=
  ⟨(C20_cursor_bounds env_one_minute (fun _ n => n) true (fun i => i) 15360 PSRAM_BUFFER_SIZE
      recorder_boot recorder_boot (by decide) ⟨by decide, by decide⟩).2.2.1,
   (C20_cursor_bounds env_one_minute (fun _ n => n) true (fun i => i) 15360 PSRAM_BUFFER_SIZE
      recorder_boot recorder_boot (by decide) ⟨by decide, by decide⟩).2.2.2.2.1⟩

/-- C16 (as amended): `SD_write` creates `sd_init_task` exactly when it finds the state
Idle and `cycle_count` equal to 990. In a session with full reads, started by
`audio_recorder_start`, during the first fill of the arena (capture cycles `n ≤ 990`)
the number of capture cycles remaining before the capture cursor wraps is `1000 - n`, and
the call of `SD_write` in capture cycle `n` creates `sd_init_task` exactly when `n = 990`:
the first request is made with exactly 10 cycles remaining and none is made while more
than 10 remain. -/
theorem C16_drain_trigger (env : session_env) (s r : recorder) (n : Nat)
    (hfull : ∀ k, env.readsize k = 15360) (hn : n ≤ 990) :
    ((SD_write r).2 = some sd_task.sd_init_task ↔
      (r.current_state = RECORDER_STATE_IDLE ∧ r.cycle_count = 990)) ∧
    cycles_until_wrap (capture_loop env n 0 (session_start env s)).r.i2s_write_pos
      = 1000 - n ∧
    ((SD_write (at_SD_write env n (capture_loop env n 0 (session_start env s))).r).2 =
        some sd_task.sd_init_task ↔ n = 990) := by
  have hff := capture_loop_first_fill env hfull n (session_start env s) hn
    (session_start_first_fill env s)
  obtain ⟨ht, hs, hc, hp⟩ := hff
  refine ⟨SD_write_request_iff r, ?_, ?_⟩
  · unfold cycles_until_wrap
    rw [hp, arena_words]
    omega
  · rw [at_SD_write_of_no_task env n _ ht, SD_write_request_iff]
    constructor
    · rintro ⟨-, h2⟩
      have h3 : (capture_loop env n 0 (session_start env s)).r.cycle_count = 990 := h2
      omega
    · intro h
      exact ⟨hs, by
        show (capture_loop env n 0 (session_start env s)).r.cycle_count = 990
        omega⟩

/-- Witness for C16: capture cycle 990 of the session whose drain stalls. -/
theorem C16_drain_trigger_witness :
    cycles_until_wrap (capture_loop env_stalled_drain 990 0
      (session_start env_stalled_drain recorder_boot)).r.i2s_write_pos = 1000 - 990 ∧
    (SD_write (at_SD_write env_stalled_drain 990 (capture_loop env_stalled_drain 990 0
      (session_start env_stalled_drain recorder_boot))).r).2 = some sd_task.sd_init_task :=
  ⟨(C16_drain_trigger env_stalled_drain recorder_boot recorder_boot 990 (fun _ => rfl)
      (le_refl 990)).2.1,
   (C16_drain_trigger env_stalled_drain recorder_boot recorder_boot 990 (fun _ => rfl)
      (le_refl 990)).2.2.2 rfl⟩

/-- C16 (counterexample): in the session whose append-open fails, at capture cycle 991 the
state is Idle and 9 capture cycles remain before the cursor wraps, yet `SD_write` creates
no task; in the session whose drain stalls, the same holds at capture cycle 992 with 8
cycles remaining. -/
theorem C16_counterexample :
    ((capture_loop env_open_fails 991 0
        (session_start env_open_fails recorder_boot)).r.current_state = RECORDER_STATE_IDLE ∧
      cycles_until_wrap (capture_loop env_open_fails 991 0
        (session_start env_open_fails recorder_boot)).r.i2s_write_pos = 9 ∧
      (at_SD_write env_open_fails 991 (capture_loop env_open_fails 991 0
        (session_start env_open_fails recorder_boot))).r.current_state = RECORDER_STATE_IDLE ∧
      (SD_write (at_SD_write env_open_fails 991 (capture_loop env_open_fails 991 0
        (session_start env_open_fails recorder_boot))).r).2 = none) ∧
    ((capture_loop env_stalled_drain 992 0
        (session_start env_stalled_drain recorder_boot)).r.current_state = RECORDER_STATE_IDLE ∧
      cycles_until_wrap (capture_loop env_stalled_drain 992 0
        (session_start env_stalled_drain recorder_boot)).r.i2s_write_pos = 8 ∧
      (at_SD_write env_stalled_drain 992 (capture_loop env_stalled_drain 992 0
        (session_start env_stalled_drain recorder_boot))).r.current_state = RECORDER_STATE_IDLE ∧
      (SD_write (at_SD_write env_stalled_drain 992 (capture_loop env_stalled_drain 992 0
        (session_start env_stalled_drain recorder_boot))).r).2 = none) := by
  have hstart1 : (session_start env_open_fails recorder_boot).r.i2s_write_pos % 3840 = 0 ∧
      (session_start env_open_fails recorder_boot).r.i2s_write_pos < 3840000 := by
    constructor <;> decide
  have hstart2 : (session_start env_stalled_drain recorder_boot).r.i2s_write_pos % 3840 = 0 ∧
      (session_start env_stalled_drain recorder_boot).r.i2s_write_pos < 3840000 := by
    constructor <;> decide
  rw [capture_loop_eq_full env_open_fails (fun _ => rfl) 991 0 _ hstart1,
    capture_loop_eq_full env_stalled_drain (fun _ => rfl) 992 0 _ hstart2]
  exact ⟨by decide!, by decide!⟩

/-- C12 (failing input): a one-minute session with full reads on a good card. Its capture
loop ends after 689 cycles in state Idle with 2,645,760 captured words in the arena and
no task created; no final drain is made, `audio_recorder_start` returns true and the file
is the bare 44-byte header with data size 0. And in a session whose capture loop ends
right after `sd_init_task` has run (state Recording), the synchronous drain appends the
7,680,000 bytes of the arena, the call does not return, and the two size fields of the
header stay 0. -/
theorem C12_final_drain_missing :
    ((capture_loop env_one_minute env_one_minute.cycles 0
        (session_start env_one_minute recorder_boot)).r.i2s_write_pos = 2645760 ∧
      (capture_loop env_one_minute env_one_minute.cycles 0
        (session_start env_one_minute recorder_boot)).r.current_state = RECORDER_STATE_IDLE ∧
      (capture_loop env_one_minute env_one_minute.cycles 0
        (session_start env_one_minute recorder_boot)).log = [] ∧
      (audio_recorder_start env_one_minute true 1 recorder_boot).1 = some true ∧
      ∃ f, (audio_recorder_start env_one_minute true 1 recorder_boot).2.r.card_file = some f ∧
        f.length = 44 ∧ read_le32 f 40 = 0) ∧
    ((audio_recorder_start env_exit_in_recording true 2 recorder_boot).1 = none ∧
      ∃ payload, payload.length = 7680000 ∧
        (audio_recorder_start env_exit_in_recording true 2 recorder_boot).2.r.card_file =
          some (wav_header ++ payload) ∧
        read_le32 (wav_header ++ payload) 4 = 0 ∧
        read_le32 (wav_header ++ payload) 40 = 0) := by
  have hstart1 : (session_start env_one_minute recorder_boot).r.i2s_write_pos % 3840 = 0 ∧
      (session_start env_one_minute recorder_boot).r.i2s_write_pos < 3840000 := by
    constructor <;> decide
  have hstart2 : (session_start env_exit_in_recording recorder_boot).r.i2s_write_pos % 3840 = 0 ∧
      (session_start env_exit_in_recording recorder_boot).r.i2s_write_pos < 3840000 := by
    constructor <;> decide
  constructor
  · have hst : (capture_loop env_one_minute env_one_minute.cycles 0
        (session_start env_one_minute recorder_boot)).r.current_state = RECORDER_STATE_IDLE := by
      decide!
    have hfile : (capture_loop env_one_minute env_one_minute.cycles 0
        (session_start env_one_minute recorder_boot)).r.card_file = some wav_header := by
      decide!
    refine ⟨?_, hst, by decide!, ?_, ?_⟩
    · rw [capture_loop_eq_full env_one_minute (fun _ => rfl) _ 0 _ hstart1]
      decide!
    · rw [audio_recorder_start_result _ _ _ (by decide) rfl, hst]
      simp
    · rw [audio_recorder_start_finalizes _ _ _ (by decide) rfl (by rw [hst]; decide), hfile]
      exact ⟨_, rfl, by decide, by decide⟩
  · have hst : (capture_loop env_exit_in_recording env_exit_in_recording.cycles 0
        (session_start env_exit_in_recording recorder_boot)).r.current_state =
          RECORDER_STATE_RECORDING := by
      decide!
    have hpos : 0 < (capture_loop env_exit_in_recording env_exit_in_recording.cycles 0
        (session_start env_exit_in_recording recorder_boot)).r.i2s_write_pos := by
      rw [capture_loop_eq_full env_exit_in_recording (fun _ => rfl) _ 0 _ hstart2]
      decide!
    have hfile : (capture_loop env_exit_in_recording env_exit_in_recording.cycles 0
        (session_start env_exit_in_recording recorder_boot)).r.card_file = some wav_header := by
      decide!
    have hsd : (capture_loop env_exit_in_recording env_exit_in_recording.cycles 0
        (session_start env_exit_in_recording recorder_boot)).r.sd_write_pos = 3072 * 0 := by
      decide!
    constructor
    · rw [audio_recorder_start_result _ _ _ (by decide) rfl, if_pos ⟨hpos, hst⟩]
    · obtain ⟨-, -, hcard⟩ := drain_loop_complete
        (env_exit_in_recording.fwrite_ret (capture_loop env_exit_in_recording
          env_exit_in_recording.cycles 0 (session_start env_exit_in_recording recorder_boot)).drains)
        PSRAM_BUFFER_SIZE 0 _ hsd (by omega) (by decide) (fun i _ _ => le_refl _)
      refine ⟨(List.range' (3072 * 0) (3072 * (2500 - 0))).map (psram_byte
        (capture_loop env_exit_in_recording env_exit_in_recording.cycles 0
          (session_start env_exit_in_recording recorder_boot)).r.psram_buffer), ?_, ?_, ?_, ?_⟩
      · simp
      · rw [audio_recorder_start_final_drain _ _ _ (by decide) rfl hpos hst, hcard, hfile]
        rfl
      · rw [read_le32_append_left _ _ _ (by decide)]
        decide
      · rw [read_le32_append_left _ _ _ (by decide)]
        decide

end GIAS
